import Mathlib

/-!
# Tuya taskbar application (`src/main.js`)

A shallow embedding of the Electron main-process script: the JavaScript values it
handles, the JSON text of the configuration file, the cloud requests it issues, the
menu template it builds and the event handlers it registers.

Conventions of the embedding.

* JavaScript values are the inductive `JSValue`; every value the script handles comes
  from JSON text (the configuration file, the vendor's responses) or from the
  configuration form (four strings). Strings are sequences of Unicode scalar values, so
  a string with an unpaired surrogate is not represented.
* A function that can throw returns `Except JSError _`; a function that also reads or
  writes the module-level variables or the outside world is an `Eff`, a state
  transformer over `AppState` whose state survives a throw.
* `await` is modelled by running the awaited call to completion: one handler runs from
  start to end before the next event is handled.
* The conversion of a number to a string and the vendor cloud are parameters (`Env`).
* A template literal converts each value it holds with `toStringJS`, which throws a
  `TypeError` for an object with an own property `toString`, also inside an array.
* The calls into the shell, the SDK and the file system that the script does not guard
  (`new Tray`, `new BrowserWindow`, `new TuyaContext`, `Menu.buildFromTemplate`,
  `setInterval`, `ipcMain.on`, `fs.writeFileSync`, `fs.readFileSync` on an existing file)
  are taken to succeed.
-/

namespace TuyaTaskbar

/-! ## JavaScript values -/

/-- The number written by a JSON numeral: `(-1)^neg * mant * 10^exp10`, kept exactly as
written. The double it denotes is the rounding of this decimal. -/
structure JSNum where
  neg : Bool
  mant : Nat
  exp10 : Int
deriving DecidableEq, Repr

/-- The values handled by the script. -/
inductive JSValue where
  | undefined
  | null
  | bool (b : Bool)
  | num (n : JSNum)
  | str (s : String)
  | arr (items : List JSValue)
  | obj (props : List (String × JSValue))
deriving Repr

/-- The values thrown in the script: a `TypeError` of the language, the `SyntaxError` of
`JSON.parse`, or the rejection of a cloud request. -/
inductive JSError where
  | typeError
  | syntaxError
  | rejected (reason : String)
deriving DecidableEq, Repr

/-- Whether the decimal rounds to the double `+0` or `-0`: the mantissa is zero, or the
value is at most `2^-1075`, half the least positive double. -/
def JSNum.roundsToZero (n : JSNum) : Bool :=
  if n.mant = 0 then true
  else if 0 ≤ n.exp10 then false
  else decide (n.mant * 2 ^ 1075 ≤ 10 ^ (-n.exp10).toNat)

/-- The conversion `ToBoolean`, used by `!v`, `v ? a : b` and `if (v)`. -/
def toBoolean : JSValue → Bool
  | .undefined => false
  | .null => false
  | .bool b => b
  | .num n => !n.roundsToZero
  | .str s => !s.data.isEmpty
  | .arr _ => true
  | .obj _ => true

/-- The operator `typeof`. -/
def typeOf : JSValue → String
  | .undefined => "undefined"
  | .null => "object"
  | .bool _ => "boolean"
  | .num _ => "number"
  | .str _ => "string"
  | .arr _ => "object"
  | .obj _ => "object"

/-- Lookup of an own property in the property list of an object. -/
def lookupProp (key : String) : List (String × JSValue) → JSValue
  | [] => .undefined
  | (k, v) :: rest => if k = key then v else lookupProp key rest

/-- The property read `v.key`, for a key that no built-in prototype defines (all keys
read by the script are such): a `TypeError` on `undefined` and `null`, the own property
of an object, `undefined` otherwise. -/
def getProp (v : JSValue) (key : String) : Except JSError JSValue :=
  match v with
  | .undefined => .error .typeError
  | .null => .error .typeError
  | .obj props => .ok (lookupProp key props)
  | _ => .ok .undefined

/-- Whether the property list of an object has an own property with the key. -/
def hasOwnProp (key : String) : List (String × JSValue) → Bool
  | [] => false
  | (k, _) :: rest => if k = key then true else hasOwnProp key rest

mutual
/-- The conversion `ToString` of a template literal `${v}`, given the conversion of
numbers. An array is converted by `Array.prototype.toString`, that is by `join`. An object
is converted by `Object.prototype.toString`, which gives `[object Object]`, unless it has
an own property `toString`: a value read from JSON is never callable, the inherited
`valueOf` returns the object itself, so the conversion throws a `TypeError`. -/
def toStringJS (numberToString : JSNum → String) : JSValue → Except JSError String
  | .undefined => .ok "undefined"
  | .null => .ok "null"
  | .bool b => .ok (if b then "true" else "false")
  | .num n => .ok (numberToString n)
  | .str s => .ok s
  | .arr items => joinJS numberToString items
  | .obj props => if hasOwnProp "toString" props then .error .typeError else .ok "[object Object]"
termination_by structural v => v
/-- The method `Array.prototype.join` with the separator `,`: `undefined` and `null`
elements give the empty string, the other elements are converted from left to right, and
a throw of a conversion is thrown on. -/
def joinJS (numberToString : JSNum → String) : List JSValue → Except JSError String
  | [] => .ok ""
  | x :: rest =>
    match (match x with
      | .undefined => (Except.ok "" : Except JSError String)
      | .null => (Except.ok "" : Except JSError String)
      | v => toStringJS numberToString v) with
    | .error e => .error e
    | .ok first =>
      match joinJS numberToString rest with
      | .error e => .error e
      | .ok others =>
        .ok (first ++ (match rest with
          | [] => ""
          | _ :: _ => ",") ++ others)
termination_by structural items => items
end

/-! ## The message of the configuration form -/

/-- The message sent on the `save-config` channel by the configuration form: the values
of its four text inputs. -/
structure FormConfig where
  baseUrl : String
  accessKey : String
  secretKey : String
  userId : String
deriving DecidableEq, Repr

/-! ## JSON text: `JSON.stringify` on the form's message and `JSON.parse` -/

/-- The hexadecimal digit of `n < 16`, in lower case as `JSON.stringify` writes it. -/
def hexDigit (n : Nat) : Char :=
  if n < 10 then Char.ofNat (48 + n) else Char.ofNat (87 + n)

/-- The text `JSON.stringify` writes for one character of a string: the two-character
escapes, a `\u00XX` escape for the other control characters, the character itself
otherwise. -/
def escapeChar (c : Char) : List Char :=
  if c = '\"' then ['\\', '\"']
  else if c = '\\' then ['\\', '\\']
  else if c = '\x08' then ['\\', 'b']
  else if c = '\x0c' then ['\\', 'f']
  else if c = '\n' then ['\\', 'n']
  else if c = '\r' then ['\\', 'r']
  else if c = '\t' then ['\\', 't']
  else if c.toNat < 32 then ['\\', 'u', '0', '0', hexDigit (c.toNat / 16), hexDigit (c.toNat % 16)]
  else [c]

/-- The operation `QuoteJSONString`: the text of a string value. -/
def quoteJSONString (s : List Char) : List Char :=
  '\"' :: (s.flatMap escapeChar ++ ['\"'])

/-- The call `JSON.stringify(config)` on the message of the configuration form, an object
with the four string properties in the order the form's script lists them. -/
def stringifyConfig (c : FormConfig) : String :=
  String.mk (['\x7b'] ++ quoteJSONString "baseUrl".data ++ [':'] ++ quoteJSONString c.baseUrl.data
    ++ [','] ++ quoteJSONString "accessKey".data ++ [':'] ++ quoteJSONString c.accessKey.data
    ++ [','] ++ quoteJSONString "secretKey".data ++ [':'] ++ quoteJSONString c.secretKey.data
    ++ [','] ++ quoteJSONString "userId".data ++ [':'] ++ quoteJSONString c.userId.data
    ++ ['\x7d'])

/-- The object the main process receives for a message of the form. -/
def FormConfig.toJS (c : FormConfig) : JSValue :=
  .obj [("baseUrl", .str c.baseUrl), ("accessKey", .str c.accessKey),
    ("secretKey", .str c.secretKey), ("userId", .str c.userId)]

/-- The outcome of a parsing function: a value and the text left, a syntax error, or
the recursion budget used up. -/
inductive PResult (α : Type) where
  | ok (value : α) (rest : List Char)
  | syntaxError
  | outOfFuel

/-- JSON white space: space, tab, line feed, carriage return. -/
def isWs (c : Char) : Bool :=
  c = ' ' || c = '\t' || c = '\n' || c = '\r'

/-- Drop leading white space. -/
def skipWs : List Char → List Char
  | [] => []
  | c :: cs => if isWs c then skipWs cs else c :: cs

/-- The value of a hexadecimal digit, in either case. -/
def hexVal (c : Char) : Option Nat :=
  if 48 ≤ c.toNat ∧ c.toNat ≤ 57 then some (c.toNat - 48)
  else if 97 ≤ c.toNat ∧ c.toNat ≤ 102 then some (c.toNat - 87)
  else if 65 ≤ c.toNat ∧ c.toNat ≤ 70 then some (c.toNat - 55)
  else none

/-- The value of four hexadecimal digits. -/
def hex4 (a b c d : Char) : Option Nat :=
  match hexVal a, hexVal b, hexVal c, hexVal d with
  | some x, some y, some z, some w => some (((x * 16 + y) * 16 + z) * 16 + w)
  | _, _, _, _ => none

/-- Put a character in front of the string of a result. -/
def consChar (c : Char) : Option (List Char × List Char) → Option (List Char × List Char)
  | some (s, rest) => some (c :: s, rest)
  | none => none

/-- Four hexadecimal digits at the head of the text: their value and the text left. -/
def parseHex4 : List Char → Option (Nat × List Char)
  | h1 :: h2 :: h3 :: h4 :: r =>
    match hex4 h1 h2 h3 h4 with
    | some v => some (v, r)
    | none => none
  | _ => none

/-- A `\u` escape of a low surrogate at the head of the text. -/
def parseLowSurrogate : List Char → Option (Nat × List Char)
  | b :: u :: r =>
    if b = '\\' ∧ u = 'u' then
      match parseHex4 r with
      | some (w, r2) => if 0xDC00 ≤ w ∧ w < 0xE000 then some (w, r2) else none
      | none => none
    else none
  | _ => none

/-- The character written by an escape, from the text after its backslash, and the text
left. A `\u` escape of a high surrogate followed by one of a low surrogate is the character
of the pair; an escape of an unpaired surrogate is read as U+FFFD. -/
def parseEscape : List Char → Option (Char × List Char)
  | [] => none
  | e :: r =>
    if e = '\"' then some ('\"', r)
    else if e = '\\' then some ('\\', r)
    else if e = '/' then some ('/', r)
    else if e = 'b' then some ('\x08', r)
    else if e = 'f' then some ('\x0c', r)
    else if e = 'n' then some ('\n', r)
    else if e = 'r' then some ('\r', r)
    else if e = 't' then some ('\t', r)
    else if e = 'u' then
      match parseHex4 r with
      | none => none
      | some (v, r1) =>
        if 0xD800 ≤ v ∧ v < 0xDC00 then
          match parseLowSurrogate r1 with
          | some (w, r2) => some (Char.ofNat (0x10000 + (v - 0xD800) * 0x400 + (w - 0xDC00)), r2)
          | none => some (Char.ofNat 0xFFFD, r1)
        else if 0xDC00 ≤ v ∧ v < 0xE000 then some (Char.ofNat 0xFFFD, r1)
        else some (Char.ofNat v, r1)
    else none

/-- The characters of a JSON string after its opening quote, up to the closing quote, with
the text left; `fuel` bounds the number of characters and escapes read. A raw control
character, a bad escape or a missing closing quote is a syntax error. -/
def parseStringTail : Nat → List Char → Option (List Char × List Char)
  | 0, _ => none
  | _ + 1, [] => none
  | fuel + 1, c :: cs =>
    if c = '\"' then some ([], cs)
    else if c = '\\' then
      match parseEscape cs with
      | none => none
      | some (ch, rest) => consChar ch (parseStringTail fuel rest)
    else if c.toNat < 32 then none
    else consChar c (parseStringTail fuel cs)

/-- A JSON string after its opening quote. The budget is the length of the text, one per
character read, and a larger one reads the same (`parseString_fuel_suffices`). -/
def parseString (cs : List Char) : Option (List Char × List Char) :=
  parseStringTail cs.length cs

/-- Whether the character is a decimal digit. -/
def isDigit (c : Char) : Bool :=
  decide (48 ≤ c.toNat ∧ c.toNat ≤ 57)

/-- The longest run of leading digits, and the text after it. -/
def spanDigits : List Char → List Char × List Char
  | [] => ([], [])
  | c :: cs => if isDigit c then ((spanDigits cs).1.cons c, (spanDigits cs).2) else ([], c :: cs)

/-- The number written by a run of digits. -/
def digitsToNat (ds : List Char) : Nat :=
  ds.foldl (fun n c => 10 * n + (c.toNat - 48)) 0

/-- The integer part of a JSON numeral: a single `0`, or a run of digits that does not
start with `0`. -/
def parseIntPart : List Char → Option (List Char × List Char)
  | [] => none
  | c :: cs =>
    if c = '0' then some (['0'], cs)
    else if isDigit c then some (spanDigits (c :: cs))
    else none

/-- The optional fraction of a JSON numeral: a point and at least one digit. -/
def parseFraction : List Char → Option (List Char × List Char)
  | '.' :: cs =>
    match spanDigits cs with
    | ([], _) => none
    | (ds, rest) => some (ds, rest)
  | cs => some ([], cs)

/-- A run of at least one digit, read as an integer with the given sign. -/
def signedDigits (neg : Bool) (cs : List Char) : Option (Int × List Char) :=
  match spanDigits cs with
  | ([], _) => none
  | (ds, rest) => some (if neg then -(digitsToNat ds : Int) else (digitsToNat ds : Int), rest)

/-- The text of an exponent after its `e`: an optional sign and at least one digit. -/
def parseExponentDigits : List Char → Option (Int × List Char)
  | [] => none
  | s :: r =>
    if s = '+' then signedDigits false r
    else if s = '-' then signedDigits true r
    else signedDigits false (s :: r)

/-- The optional exponent of a JSON numeral: `e` or `E`, an optional sign and at least one
digit. -/
def parseExponent : List Char → Option (Int × List Char)
  | [] => some (0, [])
  | c :: cs => if c = 'e' ∨ c = 'E' then parseExponentDigits cs else some (0, c :: cs)

/-- A JSON numeral without its sign. -/
def parseUnsigned (neg : Bool) (cs : List Char) : Option (JSNum × List Char) :=
  match parseIntPart cs with
  | none => none
  | some (ip, r1) =>
    match parseFraction r1 with
    | none => none
    | some (fp, r2) =>
      match parseExponent r2 with
      | none => none
      | some (e, r3) =>
        some ({ neg := neg, mant := digitsToNat (ip ++ fp), exp10 := e - (fp.length : Int) }, r3)

/-- A JSON numeral. -/
def parseNumber : List Char → Option (JSNum × List Char)
  | '-' :: cs => parseUnsigned true cs
  | cs => parseUnsigned false cs

/-- The operation `CreateDataProperty` of `JSON.parse`: a repeated key keeps its place
and takes the later value. -/
def setProp (key : String) (v : JSValue) : List (String × JSValue) → List (String × JSValue)
  | [] => [(key, v)]
  | (k, w) :: rest => if k = key then (k, v) :: rest else (k, w) :: setProp key v rest

/-- Drop the characters of a literal from the head of the text. -/
def dropLiteral : List Char → List Char → Option (List Char)
  | [], cs => some cs
  | _ :: _, [] => none
  | p :: ps, c :: cs => if p = c then dropLiteral ps cs else none

/-- A JSON value that is not an array or an object, at the head of the text: a string,
`true`, `false`, `null` or a number. -/
def parseScalar (cs : List Char) : Option (JSValue × List Char) :=
  match cs with
  | [] => none
  | c :: r =>
    if c = '\"' then
      match parseString r with
      | some (s, rest) => some (.str (String.mk s), rest)
      | none => none
    else
      match dropLiteral ['t', 'r', 'u', 'e'] cs with
      | some rest => some (.bool true, rest)
      | none =>
        match dropLiteral ['f', 'a', 'l', 's', 'e'] cs with
        | some rest => some (.bool false, rest)
        | none =>
          match dropLiteral ['n', 'u', 'l', 'l'] cs with
          | some rest => some (.null, rest)
          | none =>
            match parseNumber cs with
            | some (n, rest) => some (.num n, rest)
            | none => none

mutual
/-- A JSON value after optional white space; `fuel` bounds the number of nested calls. -/
def parseValue : Nat → List Char → PResult JSValue
  | 0, _ => .outOfFuel
  | fuel + 1, cs =>
    match skipWs cs with
    | [] => .syntaxError
    | c :: r =>
      if c = '\x7b' then
        match skipWs r with
        | [] => .syntaxError
        | d :: r1 =>
          if d = '\x7d' then .ok (.obj []) r1
          else
            match parseMembers fuel (d :: r1) [] with
            | .ok props rest => .ok (.obj props) rest
            | .syntaxError => .syntaxError
            | .outOfFuel => .outOfFuel
      else if c = '[' then
        match skipWs r with
        | [] => .syntaxError
        | d :: r1 =>
          if d = ']' then .ok (.arr []) r1
          else
            match parseElements fuel (d :: r1) with
            | .ok items rest => .ok (.arr items) rest
            | .syntaxError => .syntaxError
            | .outOfFuel => .outOfFuel
      else
        match parseScalar (c :: r) with
        | some (v, rest) => .ok v rest
        | none => .syntaxError
/-- The elements of a JSON array from the start of an element to the closing bracket. -/
def parseElements : Nat → List Char → PResult (List JSValue)
  | 0, _ => .outOfFuel
  | fuel + 1, cs =>
    match parseValue fuel cs with
    | .syntaxError => .syntaxError
    | .outOfFuel => .outOfFuel
    | .ok v r =>
      match skipWs r with
      | [] => .syntaxError
      | c :: r1 =>
        if c = ',' then
          match parseElements fuel r1 with
          | .ok items rest => .ok (v :: items) rest
          | .syntaxError => .syntaxError
          | .outOfFuel => .outOfFuel
        else if c = ']' then .ok [v] r1
        else .syntaxError
/-- The members of a JSON object from the start of a member to the closing brace, added
to the properties `acc` read so far. -/
def parseMembers : Nat → List Char → List (String × JSValue) → PResult (List (String × JSValue))
  | 0, _, _ => .outOfFuel
  | fuel + 1, cs, acc =>
    match skipWs cs with
    | [] => .syntaxError
    | q :: r =>
      if q = '\"' then
        match parseString r with
        | none => .syntaxError
        | some (key, r1) =>
          match skipWs r1 with
          | [] => .syntaxError
          | c :: r2 =>
            if c = ':' then
              match parseValue fuel r2 with
              | .syntaxError => .syntaxError
              | .outOfFuel => .outOfFuel
              | .ok v r3 =>
                match skipWs r3 with
                | [] => .syntaxError
                | d :: r4 =>
                  if d = ',' then parseMembers fuel r4 (setProp (String.mk key) v acc)
                  else if d = '\x7d' then .ok (setProp (String.mk key) v acc) r4
                  else .syntaxError
            else .syntaxError
      else .syntaxError
end

/-- The call `JSON.parse(text)`: one JSON value between optional white space. The
recursion budget is twice the length of the text plus two, which is never used up
(`jsonParse_fuel_suffices`). -/
def jsonParse (text : String) : Except JSError JSValue :=
  match parseValue (2 * text.data.length + 2) text.data with
  | .ok v rest => if (skipWs rest).isEmpty then .ok v else .error .syntaxError
  | .syntaxError => .error .syntaxError
  | .outOfFuel => .error .syntaxError

/-! ## The cloud client, the menu template and the application state -/

/-- The options object passed to `new TuyaContext(...)` by `createTuyaContext`. -/
structure TuyaContext where
  baseUrl : JSValue
  accessKey : JSValue
  secretKey : JSValue

/-- The argument of `tuya.request(...)`. -/
structure Request where
  method : String
  path : String
  body : Option JSValue

/-- The two `click` functions of the menu template. The closure built by
`createDeviceMenu` captures the device and the status item it was built from. -/
inductive ClickHandler where
  | toggleThenUpdate (device : JSValue) (s : JSValue)
  | openConfigWindow

/-- An entry of a device's submenu: the object literal of `createDeviceMenu`. -/
structure StatusEntry where
  label : String
  click : ClickHandler
  enabled : Bool

/-- An entry of the tray menu template; a field that the object literal does not set is
`none`. -/
structure MenuItemTemplate where
  label : Option JSValue
  type : Option String
  role : Option String
  click : Option ClickHandler
  submenu : Option (List StatusEntry)

/-- The module-level variables of `main.js`, the outside world the script acts on (the
configuration file, the requests sent, the diagnostic stream, the tray's menu, the
timers and listeners registered) and two counters of calls. -/
structure AppState where
  /-- The variable `tray`: whether the tray icon was created. -/
  tray : Bool
  /-- The variable `currentContextMenu`, `null` at first. -/
  currentContextMenu : Option (List MenuItemTemplate)
  /-- The variable `configWindow`: whether the window is open. -/
  configWindow : Bool
  /-- The variable `devices`. -/
  devices : JSValue
  /-- The variable `config`. -/
  config : JSValue
  /-- The variable `tuya`. -/
  tuya : Option TuyaContext
  /-- The content of the file at `configPath`, `none` when it does not exist. -/
  configFile : Option String
  /-- The requests issued so far, each with the client it was issued on. -/
  sent : List (TuyaContext × Request)
  /-- The calls of `console.error`: the message and the error. -/
  console : List (String × JSError)
  /-- The template last given to `tray.setContextMenu`. -/
  trayMenu : Option (List MenuItemTemplate)
  /-- The number of `setInterval` timers running. -/
  timers : Nat
  /-- Whether the `save-config` listener is registered. -/
  saveConfigListener : Bool
  /-- Whether the `whenReady` callback has run. -/
  ready : Bool
  /-- The value of `config` at each call of `createTuyaContext`. -/
  contextsBuiltWith : List JSValue
  /-- The number of calls of `updateMenu`. -/
  updateMenuCalls : Nat

/-- What the script does not define: the conversion of a number to a string, and the
vendor cloud, which settles the `n`-th request issued (on a client, with an argument)
with a response or a rejection. -/
structure Env where
  numberToString : JSNum → String
  request : Nat → TuyaContext → Request → Except JSError JSValue

/-- A computation of the script: it reads and writes the state and returns or throws. -/
def Eff (α : Type) : Type := AppState → Except JSError α × AppState

/-- Return a value. -/
def Eff.pure {α : Type} (a : α) : Eff α := fun st => (.ok a, st)

/-- Run `m`, then `f` on its value; a throw of `m` skips `f`. -/
def Eff.bind {α β : Type} (m : Eff α) (f : α → Eff β) : Eff β := fun st =>
  match m st with
  | (.ok a, st1) => f a st1
  | (.error e, st1) => (.error e, st1)

instance : Monad Eff where
  pure := Eff.pure
  bind := Eff.bind

/-- The statement `try { m } catch (error) { handler error }`. -/
def Eff.tryCatch {α : Type} (m : Eff α) (handler : JSError → Eff α) : Eff α := fun st =>
  match m st with
  | (.ok a, st1) => (.ok a, st1)
  | (.error e, st1) => handler e st1

/-- A pure computation that can throw, as a computation of the script. -/
def Eff.lift {α : Type} (r : Except JSError α) : Eff α := fun st => (r, st)

/-- A call of an `async` function whose promise is not awaited: its effects happen, its
rejection is not seen by the caller. -/
def Eff.detached (m : Eff Unit) : Eff Unit := fun st => (.ok (), (m st).2)

/-- The read of a module-level variable. -/
def Eff.get : Eff AppState := fun st => (.ok st, st)

/-- An update of the state. -/
def Eff.modify (f : AppState → AppState) : Eff Unit := fun st => (.ok (), f st)

/-- The call `console.error(message, error)`. -/
def consoleError (message : String) (error : JSError) : Eff Unit :=
  Eff.modify fun st => { st with console := st.console ++ [(message, error)] }

/-- The call `await tuya.request(req)` on the client `client`: the request is recorded
and the cloud settles it. -/
def tuyaRequest (env : Env) (client : TuyaContext) (req : Request) : Eff JSValue := fun st =>
  (env.request st.sent.length client req, { st with sent := st.sent ++ [(client, req)] })

/-! ## The functions of `main.js` -/

/-- The function `loadConfig`: the parsed content of the configuration file when it exists,
the object of four empty strings otherwise. A syntax error of `JSON.parse` is thrown on. -/
def loadConfig : Eff JSValue := fun st =>
  match st.configFile with
  | some configFile => (jsonParse configFile, st)
  | none =>
    (.ok (.obj [("baseUrl", .str ""), ("accessKey", .str ""), ("secretKey", .str ""),
      ("userId", .str "")]), st)

/-- The function `saveConfig`, called on the message of the configuration form: the file
is overwritten with the serialized object. -/
def saveConfig (config : FormConfig) : Eff Unit :=
  Eff.modify fun st => { st with configFile := some (stringifyConfig config) }

/-- The function `createTuyaContext`: a client built from three properties of `config`.
The call is recorded with the value of `config`. -/
def createTuyaContext : Eff TuyaContext := do
  Eff.modify fun st => { st with contextsBuiltWith := st.contextsBuiltWith ++ [st.config] }
  let st ← Eff.get
  let baseUrl ← Eff.lift (getProp st.config "baseUrl")
  let accessKey ← Eff.lift (getProp st.config "accessKey")
  let secretKey ← Eff.lift (getProp st.config "secretKey")
  pure { baseUrl := baseUrl, accessKey := accessKey, secretKey := secretKey }

/-- The function `fetchDevices`. -/
def fetchDevices (env : Env) : Eff JSValue := do
  let st ← Eff.get
  match st.tuya with
  | none => pure .undefined
  | some tuya =>
    Eff.tryCatch
      (do
        let userId ← Eff.lift (getProp st.config "userId")
        let user ← Eff.lift (toStringJS env.numberToString userId)
        let response ← tuyaRequest env tuya
          { method := "GET",
            path := "/v1.0/users/" ++ user ++ "/devices",
            body := none }
        Eff.lift (getProp response "result"))
      (fun error => do
        consoleError "Error fetching devices:" error
        pure (.arr []))

/-- The function `fetchDeviceStatus`. -/
def fetchDeviceStatus (env : Env) (deviceId : JSValue) : Eff JSValue := do
  let st ← Eff.get
  match st.tuya with
  | none => pure .undefined
  | some tuya =>
    Eff.tryCatch
      (do
        let device ← Eff.lift (toStringJS env.numberToString deviceId)
        let response ← tuyaRequest env tuya
          { method := "GET",
            path := "/v1.0/devices/" ++ device ++ "/status",
            body := none }
        Eff.lift (getProp response "result"))
      (fun error => do
        consoleError "Error fetching device status:" error
        pure (.arr []))

/-- The function `toggleDeviceState`. -/
def toggleDeviceState (env : Env) (deviceId code currentState : JSValue) : Eff Unit := do
  let st ← Eff.get
  match st.tuya with
  | none => pure ()
  | some tuya =>
    Eff.tryCatch
      (do
        let command : JSValue :=
          .obj [("commands", .arr [.obj [("code", code),
            ("value", .bool (!toBoolean currentState))]])]
        let device ← Eff.lift (toStringJS env.numberToString deviceId)
        let _ ← tuyaRequest env tuya
          { method := "POST",
            path := "/v1.0/devices/" ++ device ++ "/commands",
            body := some command }
        pure ())
      (fun error => consoleError "Error toggling device state:" error)

/-- Apply a function that can throw to the elements of a list, in order, stopping at the
first throw. -/
def mapThrowing {α β : Type} (f : α → Except JSError β) : List α → Except JSError (List β)
  | [] => .ok []
  | x :: xs =>
    match f x with
    | .error e => .error e
    | .ok y =>
      match mapThrowing f xs with
      | .error e => .error e
      | .ok ys => .ok (y :: ys)

/-- The call `v.map(callback)`: a `TypeError` unless `v` is an array. -/
def arrayMap {β : Type} (v : JSValue) (callback : JSValue → Except JSError β) :
    Except JSError (List β) :=
  match v with
  | .arr items => mapThrowing callback items
  | _ => .error .typeError

/-- The callback of `status.map` in `createDeviceMenu`: the entry of one status item. -/
def statusEntry (numberToString : JSNum → String) (device s : JSValue) :
    Except JSError StatusEntry := do
  let code ← getProp s "code"
  let codeText ← toStringJS numberToString code
  let value ← getProp s "value"
  pure { label := codeText ++ " - " ++ (if toBoolean value then "On" else "Off"),
         click := .toggleThenUpdate device s,
         enabled := decide (typeOf value = "boolean") }

/-- The function `createDeviceMenu`. -/
def createDeviceMenu (numberToString : JSNum → String) (device status : JSValue) :
    Except JSError MenuItemTemplate := do
  let statusItems ← arrayMap status (statusEntry numberToString device)
  let name ← getProp device "name"
  pure { label := some name, type := none, role := none, click := none,
         submenu := some statusItems }

/-- Run the computations one after the other, keeping each outcome: the callbacks of
`devices.map(async ...)`, each of which issues its request when it is called. -/
def settleAll {α : Type} : List (Eff α) → AppState → List (Except JSError α) × AppState
  | [], st => ([], st)
  | m :: ms, st => ((m st).1 :: (settleAll ms (m st).2).1, (settleAll ms (m st).2).2)

/-- The call `await Promise.all(promises)`: the values in the order of the promises, or a
rejection when one of them rejects. -/
def promiseAll {α : Type} (ms : List (Eff α)) : Eff (List α) := fun st =>
  (mapThrowing id (settleAll ms st).1, (settleAll ms st).2)

/-- The three fixed entries at the end of the tray menu. -/
def fixedEntries : List MenuItemTemplate :=
  [ { label := none, type := some "separator", role := none, click := none, submenu := none },
    { label := some (.str "Open Configuration"), type := none, role := none,
      click := some .openConfigWindow, submenu := none },
    { label := some (.str "Quit"), type := none, role := some "quit", click := none,
      submenu := none } ]

/-- The call `tray.setContextMenu(Menu.buildFromTemplate(template))`: a `TypeError` while
`tray` is `null`; otherwise the tray takes the template (the shell is taken to accept every
template built by `updateMenu`). -/
def setContextMenu (template : List MenuItemTemplate) : Eff Unit := fun st =>
  if st.tray then (.ok (), { st with trayMenu := some template })
  else (.error .typeError, st)

/-- The `async` callback of `devices.map` in `updateMenu`: the status of the device is
fetched and its menu node is built. -/
def deviceMenuItem (env : Env) (device : JSValue) : Eff MenuItemTemplate := do
  let deviceId ← Eff.lift (getProp device "id")
  let status ← fetchDeviceStatus env deviceId
  Eff.lift (createDeviceMenu env.numberToString device status)

/-- The function `updateMenu`. Each call is counted. -/
def updateMenu (env : Env) : Eff Unit := do
  Eff.modify fun st => { st with updateMenuCalls := st.updateMenuCalls + 1 }
  let devices ← fetchDevices env
  Eff.modify fun st => { st with devices := devices }
  let promises ← Eff.lift (arrayMap devices fun device => .ok (deviceMenuItem env device))
  let deviceMenuItems ← promiseAll promises
  Eff.modify fun st => { st with currentContextMenu := some (deviceMenuItems ++ fixedEntries) }
  setContextMenu (deviceMenuItems ++ fixedEntries)

/-- The text of one input of the configuration form: the template literal reads the
property of `config` and converts it to a string. -/
def formValue (numberToString : JSNum → String) (config : JSValue) (key : String) :
    Except JSError String := do
  let v ← getProp config key
  toStringJS numberToString v

/-- The function `openConfigWindow`: an open window is focused; otherwise a window is
created and loaded with the form, whose text is built from the four properties of
`config`, each converted to a string. The text itself is not kept. -/
def openConfigWindow (env : Env) : Eff Unit := do
  let st ← Eff.get
  if st.configWindow then pure ()
  else do
    Eff.modify fun st => { st with configWindow := true }
    let _ ← Eff.lift (formValue env.numberToString st.config "baseUrl")
    let _ ← Eff.lift (formValue env.numberToString st.config "accessKey")
    let _ ← Eff.lift (formValue env.numberToString st.config "secretKey")
    let _ ← Eff.lift (formValue env.numberToString st.config "userId")
    pure ()

/-- The function `startAutoRefresh`: one more interval timer. -/
def startAutoRefresh : Eff Unit :=
  Eff.modify fun st => { st with timers := st.timers + 1 }

/-- The condition `!config.baseUrl || !config.accessKey || !config.secretKey ||
!config.userId` of the startup branch, evaluated from left to right. -/
def configIncomplete (config : JSValue) : Except JSError Bool := do
  let baseUrl ← getProp config "baseUrl"
  if !toBoolean baseUrl then pure true
  else do
    let accessKey ← getProp config "accessKey"
    if !toBoolean accessKey then pure true
    else do
      let secretKey ← getProp config "secretKey"
      if !toBoolean secretKey then pure true
      else do
        let userId ← getProp config "userId"
        pure (!toBoolean userId)

/-- The listener of the `save-config` channel. -/
def onSaveConfig (env : Env) (newConfig : FormConfig) : Eff Unit := do
  Eff.modify fun st => { st with config := newConfig.toJS }
  saveConfig newConfig
  let tuya ← createTuyaContext
  Eff.modify fun st => { st with tuya := some tuya }
  Eff.detached (updateMenu env)

/-- The callback of `app.whenReady()`. -/
def onReady (env : Env) : Eff Unit := do
  Eff.modify fun st => { st with tray := true, ready := true }
  let config ← loadConfig
  Eff.modify fun st => { st with config := config }
  let incomplete ← Eff.lift (configIncomplete config)
  if incomplete then openConfigWindow env
  else do
    let tuya ← createTuyaContext
    Eff.modify fun st => { st with tuya := some tuya }
    Eff.detached (updateMenu env)
    startAutoRefresh
  Eff.modify fun st => { st with saveConfigListener := true }

/-- The `click` function of a status entry: `toggleDeviceState` is awaited, then
`updateMenu` is called and not awaited. -/
def onClickStatus (env : Env) (device s : JSValue) : Eff Unit := do
  let deviceId ← Eff.lift (getProp device "id")
  let code ← Eff.lift (getProp s "code")
  let value ← Eff.lift (getProp s "value")
  toggleDeviceState env deviceId code value
  Eff.detached (updateMenu env)

/-- Run a `click` function of the menu template. -/
def runClick (env : Env) : ClickHandler → Eff Unit
  | .toggleThenUpdate device s => onClickStatus env device s
  | .openConfigWindow => openConfigWindow env

/-! ## Typed views of the vendor's data -/

/-- A status item of the data model: a code and a value of any type. -/
structure StatusItem where
  code : String
  value : JSValue

/-- The value `s` is a status item: its property `code` is the string `item.code` and its
property `value` is `item.value`. Other properties are free. -/
def IsStatusItem (s : JSValue) (item : StatusItem) : Prop :=
  getProp s "code" = .ok (.str item.code) ∧ getProp s "value" = .ok item.value

/-- The value is of boolean type. -/
def IsBoolean (v : JSValue) : Prop := ∃ b : Bool, v = .bool b

/-- The text shown for a status item: its code, then ` - On` for a truthy value and
` - Off` otherwise. -/
def onOffLabel (item : StatusItem) : String :=
  item.code ++ (if toBoolean item.value then " - On" else " - Off")

/-! ## What a menu rebuild leaves alone, and what it builds -/

/-- The state `b` agrees with `a` on everything but the variables `devices` and
`currentContextMenu`, the requests sent, the diagnostic stream and the tray's menu. -/
structure Frame (a b : AppState) : Prop where
  tray : b.tray = a.tray
  configWindow : b.configWindow = a.configWindow
  config : b.config = a.config
  tuya : b.tuya = a.tuya
  configFile : b.configFile = a.configFile
  timers : b.timers = a.timers
  saveConfigListener : b.saveConfigListener = a.saveConfigListener
  ready : b.ready = a.ready
  contextsBuiltWith : b.contextsBuiltWith = a.contextsBuiltWith
  updateMenuCalls : b.updateMenuCalls = a.updateMenuCalls

/-- The value `fetchDeviceStatus(deviceId)` returns with a client `client`, when a request
it issues is the `n`-th one: the property `result` of the response; or the empty array,
when the device id cannot be converted to a string (no request is issued then), when the
request is rejected or when the response has no properties. -/
def statusOf (env : Env) (client : TuyaContext) (n : Nat) (deviceId : JSValue) : JSValue :=
  match toStringJS env.numberToString deviceId with
  | .error _ => .arr []
  | .ok device =>
    match env.request n client
        { method := "GET",
          path := "/v1.0/devices/" ++ device ++ "/status",
          body := none } with
    | .ok response =>
      (match getProp response "result" with
        | .ok result => result
        | .error _ => .arr [])
    | .error _ => .arr []

/-- The number of requests `fetchDeviceStatus(deviceId)` issues with a client: one, or none
when the device id cannot be converted to a string. -/
def statusRequests (env : Env) (deviceId : JSValue) : Nat :=
  match toStringJS env.numberToString deviceId with
  | .error _ => 0
  | .ok _ => 1

/-- The outcome of the callback of `devices.map` in `updateMenu` for one device, when a
status request it issues is the `n`-th one: `createDeviceMenu(device, status)` on the
status returned for the device. -/
def deviceMenuAt (env : Env) (client : TuyaContext) (n : Nat) (device : JSValue) :
    Except JSError MenuItemTemplate :=
  match getProp device "id" with
  | .error e => .error e
  | .ok deviceId =>
    createDeviceMenu env.numberToString device (statusOf env client n deviceId)

/-- The number of requests the callback of `devices.map` issues for one device. -/
def deviceRequests (env : Env) (device : JSValue) : Nat :=
  match getProp device "id" with
  | .error _ => 0
  | .ok deviceId => statusRequests env deviceId

/-- The nodes `menus` are, in order, what `createDeviceMenu` returns for the devices and
the status returned for each, the status requests being issued from the `n`-th on. -/
def MenusFor (env : Env) (client : TuyaContext) : Nat → List JSValue → List MenuItemTemplate → Prop
  | _, [], [] => True
  | n, device :: devices, menu :: menus =>
    deviceMenuAt env client n device = .ok menu ∧
      MenusFor env client (n + deviceRequests env device) devices menus
  | _, _, _ => False

/-! ## Concrete inputs -/

/-- A cloud that answers every request with one device, `{id: "d1", name: "Lamp"}`, in the
property `result`. -/
def cloudOneDevice : Env :=
  { numberToString := fun _ => "",
    request := fun _ _ _ =>
      .ok (.obj [("success", .bool true),
        ("result", .arr [.obj [("id", .str "d1"), ("name", .str "Lamp")]])]) }

/-- A cloud that rejects every request. -/
def cloudDown : Env :=
  { numberToString := fun _ => "",
    request := fun _ _ _ => .error (.rejected "network") }

/-- A client built from a complete configuration. -/
def sampleClient : TuyaContext :=
  { baseUrl := .str "https://openapi.tuyaeu.com", accessKey := .str "key",
    secretKey := .str "secret" }

/-- A state of the running application with a complete configuration and a client. -/
def sampleState : AppState :=
  { tray := true, currentContextMenu := none, configWindow := false, devices := .arr [],
    config := .obj [("baseUrl", .str "https://openapi.tuyaeu.com"), ("accessKey", .str "key"),
      ("secretKey", .str "secret"), ("userId", .str "u1")],
    tuya := some sampleClient, configFile := none, sent := [], console := [],
    trayMenu := none, timers := 1, saveConfigListener := true, ready := true,
    contextsBuiltWith := [], updateMenuCalls := 0 }

/-- A cloud that answers the first request with one device, `{id: "d1", name: "Lamp"}`,
and every later request with the status list `[{code: "switch_1", value: true}]`. -/
def cloudLamp : Env :=
  { numberToString := fun _ => "",
    request := fun n _ _ =>
      if n = 0 then
        .ok (.obj [("result", .arr [.obj [("id", .str "d1"), ("name", .str "Lamp")]])])
      else
        .ok (.obj [("result", .arr [.obj [("code", .str "switch_1"), ("value", .bool true)]])]) }

/-- The node of the device `Lamp` with the status `[{code: "switch_1", value: true}]`. -/
def lampMenu : MenuItemTemplate :=
  { label := some (.str "Lamp"), type := none, role := none, click := none,
    submenu := some [
      { label := "switch_1 - On",
        click := .toggleThenUpdate (.obj [("id", .str "d1"), ("name", .str "Lamp")])
          (.obj [("code", .str "switch_1"), ("value", .bool true)]),
        enabled := true }] }

/-- An object with an own property `toString` that is not a function, `{toString: 1}`:
a template literal that holds it throws a `TypeError`. -/
def noText : JSValue :=
  .obj [("toString", .num { neg := false, mant := 1, exp10 := 0 })]

/-- The state `sampleState` with the user id `{toString: 1}` in the configuration. -/
def sampleStateNoUser : AppState :=
  { sampleState with
    config := .obj [("baseUrl", .str "https://openapi.tuyaeu.com"), ("accessKey", .str "key"),
      ("secretKey", .str "secret"), ("userId", noText)] }

/-- A cloud that answers the first request with one device, `{id: {toString: 1}, name:
"Lamp"}`, and every later request with the status list `[{code: "switch_1", value:
true}]`. -/
def cloudNoText : Env :=
  { numberToString := fun _ => "",
    request := fun n _ _ =>
      if n = 0 then
        .ok (.obj [("result", .arr [.obj [("id", noText), ("name", .str "Lamp")]])])
      else
        .ok (.obj [("result", .arr [.obj [("code", .str "switch_1"), ("value", .bool true)]])]) }

/-! ## The events of the application -/

/-- What can happen to the running application. -/
inductive Event where
  /-- The promise `app.whenReady()` resolves. -/
  | ready
  /-- The configuration form sends a message on `save-config`. -/
  | saveConfig (newConfig : FormConfig)
  /-- An interval timer fires. -/
  | tick
  /-- The user clicks entry `i` of the tray menu. -/
  | clickItem (i : Nat)
  /-- The user clicks entry `j` of the submenu of entry `i` of the tray menu. -/
  | clickStatus (i j : Nat)
  /-- The configuration window is closed. -/
  | configWindowClosed

/-- The `click` function of entry `i` of the tray menu, when it has one. -/
def itemClick (st : AppState) (i : Nat) : Option ClickHandler :=
  match st.trayMenu with
  | none => none
  | some template =>
    match template.get? i with
    | none => none
    | some item => item.click

/-- The `click` function of entry `j` of the submenu of entry `i` of the tray menu, when
the entry exists and is enabled. -/
def statusClick (st : AppState) (i j : Nat) : Option ClickHandler :=
  match st.trayMenu with
  | none => none
  | some template =>
    match template.get? i with
    | none => none
    | some item =>
      match item.submenu with
      | none => none
      | some entries =>
        match entries.get? j with
        | none => none
        | some entry => if entry.enabled then some entry.click else none

/-- The handler that an event runs, when the event can happen in the state: `whenReady`
resolves once, a message is heard once the listener is registered, a timer fires once it
is started, a click needs its entry, a window closes when it is open. -/
def handler (env : Env) (st : AppState) : Event → Option (Eff Unit)
  | .ready => if st.ready then none else some (onReady env)
  | .saveConfig newConfig => if st.saveConfigListener then some (onSaveConfig env newConfig) else none
  | .tick => if 0 < st.timers then some (updateMenu env) else none
  | .clickItem i => (itemClick st i).map (runClick env)
  | .clickStatus i j => (statusClick st i j).map (runClick env)
  | .configWindowClosed =>
    if st.configWindow then some (Eff.modify fun st => { st with configWindow := false })
    else none

/-- One event: the state after its handler has run, whether it returned or threw; an
event that cannot happen leaves the state as it is. -/
def step (env : Env) (st : AppState) (ev : Event) : AppState :=
  match handler env st ev with
  | some h => (h st).2
  | none => st

/-- The state after a sequence of events. -/
def run (env : Env) (st : AppState) (evs : List Event) : AppState :=
  evs.foldl (step env) st

/-- The state when the script has been loaded: the initial values of the module-level
variables, and the configuration file as it is on disk. -/
def initialState (configFile : Option String) : AppState :=
  { tray := false, currentContextMenu := none, configWindow := false, devices := .arr [],
    config := .undefined, tuya := none, configFile := configFile, sent := [], console := [],
    trayMenu := none, timers := 0, saveConfigListener := false, ready := false,
    contextsBuiltWith := [], updateMenuCalls := 0 }

/-! ## Complete configurations -/

/-- The four properties `baseUrl`, `accessKey`, `secretKey` and `userId` of the value can be
read and all are truthy; for a string, truthy is non-empty. -/
def AllFieldsNonEmpty (config : JSValue) : Prop :=
  ∃ baseUrl accessKey secretKey userId : JSValue,
    getProp config "baseUrl" = .ok baseUrl ∧ getProp config "accessKey" = .ok accessKey ∧
    getProp config "secretKey" = .ok secretKey ∧ getProp config "userId" = .ok userId ∧
    toBoolean baseUrl = true ∧ toBoolean accessKey = true ∧ toBoolean secretKey = true ∧
    toBoolean userId = true

/-- The configuration loaded at startup from the configuration file is complete: `loadConfig`
returns a value whose four fields are non-empty. -/
def StartsComplete (configFile : Option String) : Prop :=
  ∃ config : JSValue, (loadConfig (initialState configFile)).1 = .ok config ∧
    AllFieldsNonEmpty config

/-! ## The computations of the script, unfolded -/

@[simp] theorem Eff.pure_run {α : Type} (a : α) (st : AppState) :
    (Pure.pure a : Eff α) st = (.ok a, st) := rfl

@[simp] theorem Eff.bind_run {α β : Type} (m : Eff α) (f : α → Eff β) (st : AppState) :
    (m >>= f) st =
      (match m st with
        | (.ok a, st1) => f a st1
        | (.error e, st1) => (.error e, st1)) := rfl

@[simp] theorem Eff.get_run (st : AppState) : Eff.get st = (.ok st, st) := rfl

@[simp] theorem Eff.modify_run (f : AppState → AppState) (st : AppState) :
    Eff.modify f st = (.ok (), f st) := rfl

@[simp] theorem Eff.lift_run {α : Type} (r : Except JSError α) (st : AppState) :
    Eff.lift r st = (r, st) := rfl

@[simp] theorem Eff.tryCatch_run {α : Type} (m : Eff α) (h : JSError → Eff α) (st : AppState) :
    Eff.tryCatch m h st =
      (match m st with
        | (.ok a, st1) => (.ok a, st1)
        | (.error e, st1) => h e st1) := rfl

@[simp] theorem Eff.detached_run (m : Eff Unit) (st : AppState) :
    Eff.detached m st = (.ok (), (m st).2) := rfl

@[simp] theorem consoleError_run (message : String) (error : JSError) (st : AppState) :
    consoleError message error st =
      (.ok (), { st with console := st.console ++ [(message, error)] }) := rfl

@[simp] theorem tuyaRequest_run (env : Env) (client : TuyaContext) (req : Request)
    (st : AppState) :
    tuyaRequest env client req st =
      (env.request st.sent.length client req, { st with sent := st.sent ++ [(client, req)] }) :=
  rfl

/-! ## The menu builder -/

/-- The entry built for a status item. -/
theorem statusEntry_of_item (numberToString : JSNum → String) (device s : JSValue)
    (item : StatusItem) (h : IsStatusItem s item) :
    statusEntry numberToString device s =
      .ok { label := item.code ++ " - " ++ (if toBoolean item.value then "On" else "Off"),
            click := .toggleThenUpdate device s,
            enabled := decide (typeOf item.value = "boolean") } := by
  obtain ⟨hc, hv⟩ := h
  simp [statusEntry, hc, hv, bind, Except.bind, pure, Except.pure, toStringJS]

/-- The entries built for a list of status items, one per item and in order. -/
theorem mapThrowing_statusEntry (numberToString : JSNum → String) (device : JSValue)
    (raw : List JSValue) (status : List StatusItem)
    (h : List.Forall₂ IsStatusItem raw status) :
    mapThrowing (statusEntry numberToString device) raw =
      .ok (List.zipWith (fun s item =>
        ({ label := item.code ++ " - " ++ (if toBoolean item.value then "On" else "Off"),
           click := .toggleThenUpdate device s,
           enabled := decide (typeOf item.value = "boolean") } : StatusEntry)) raw status) := by
  induction h with
  | nil => rfl
  | cons hx _ ih =>
    simp only [mapThrowing, statusEntry_of_item numberToString device _ _ hx, ih,
      List.zipWith_cons_cons]

/-- The node built by `createDeviceMenu` for a device with a name and a list of status
items. -/
theorem createDeviceMenu_eq (numberToString : JSNum → String) (device name : JSValue)
    (raw : List JSValue) (status : List StatusItem)
    (hname : getProp device "name" = .ok name)
    (hstatus : List.Forall₂ IsStatusItem raw status) :
    createDeviceMenu numberToString device (.arr raw) =
      .ok { label := some name, type := none, role := none, click := none,
            submenu := some (List.zipWith (fun s item =>
              ({ label := item.code ++ " - " ++ (if toBoolean item.value then "On" else "Off"),
                 click := .toggleThenUpdate device s,
                 enabled := decide (typeOf item.value = "boolean") } : StatusEntry))
              raw status) } := by
  simp [createDeviceMenu, arrayMap, mapThrowing_statusEntry numberToString device raw status hstatus,
    hname, bind, Except.bind, pure, Except.pure]

/-- The text of the template literal is the code followed by ` - On` or ` - Off`. -/
theorem label_eq_onOffLabel (item : StatusItem) :
    item.code ++ " - " ++ (if toBoolean item.value then "On" else "Off") = onOffLabel item := by
  unfold onOffLabel
  split <;> simp [String.append_assoc]

/-- The operator `typeof` gives `boolean` exactly on the values of boolean type. -/
theorem typeOf_eq_boolean_iff (v : JSValue) : typeOf v = "boolean" ↔ IsBoolean v := by
  cases v <;> simp [typeOf, IsBoolean]

/-- Claim C1. For a device whose name is `name` and a list of status items,
`createDeviceMenu` returns a node labelled `name` whose submenu has one entry per status
item, in the order of the list, the label of each being the item's code followed by
` - On` when its value is truthy and by ` - Off` otherwise. -/
theorem createDeviceMenu_labels (numberToString : JSNum → String) (device name : JSValue)
    (raw : List JSValue) (status : List StatusItem)
    (hname : getProp device "name" = .ok name)
    (hstatus : List.Forall₂ IsStatusItem raw status) :
    ∃ entries : List StatusEntry,
      createDeviceMenu numberToString device (.arr raw) =
        .ok { label := some name, type := none, role := none, click := none,
              submenu := some entries } ∧
      entries.length = status.length ∧
      entries.map (fun entry => entry.label) = status.map onOffLabel := by
  refine ⟨_, createDeviceMenu_eq numberToString device name raw status hname hstatus, ?_, ?_⟩
  · simp [List.length_zipWith, hstatus.length_eq]
  · clear hname
    induction hstatus with
    | nil => rfl
    | cons _ _ ih =>
      rw [List.zipWith_cons_cons, List.map_cons, List.map_cons, ih, label_eq_onOffLabel]

/-- Claim C1 at the status list `[{code: "switch_1", value: true}]`: one entry, labelled
`switch_1 - On`. -/
theorem createDeviceMenu_labels_witness :
    ∃ entries : List StatusEntry,
      createDeviceMenu (fun _ => "")
        (.obj [("id", .str "d1"), ("name", .str "Lamp")])
        (.arr [.obj [("code", .str "switch_1"), ("value", .bool true)]]) =
        .ok { label := some (.str "Lamp"), type := none, role := none, click := none,
              submenu := some entries } ∧
      entries.length = 1 ∧
      entries.map (fun entry => entry.label) = ["switch_1 - On"] :=
  createDeviceMenu_labels (fun _ => "") (.obj [("id", .str "d1"), ("name", .str "Lamp")])
    (.str "Lamp") [.obj [("code", .str "switch_1"), ("value", .bool true)]]
    [{ code := "switch_1", value := .bool true }] rfl
    (List.Forall₂.cons ⟨rfl, rfl⟩ List.Forall₂.nil)

/-- Claim C2. For a device whose name is `name` and a list of status items, each entry
built by `createDeviceMenu` is enabled if and only if the value of the corresponding status
item is of boolean type. -/
theorem createDeviceMenu_enabled (numberToString : JSNum → String) (device name : JSValue)
    (raw : List JSValue) (status : List StatusItem)
    (hname : getProp device "name" = .ok name)
    (hstatus : List.Forall₂ IsStatusItem raw status) :
    ∃ entries : List StatusEntry,
      createDeviceMenu numberToString device (.arr raw) =
        .ok { label := some name, type := none, role := none, click := none,
              submenu := some entries } ∧
      List.Forall₂ (fun entry item => entry.enabled = true ↔ IsBoolean item.value)
        entries status := by
  refine ⟨_, createDeviceMenu_eq numberToString device name raw status hname hstatus, ?_⟩
  clear hname
  induction hstatus with
  | nil => exact List.Forall₂.nil
  | cons _ _ ih =>
    simp only [List.zipWith_cons_cons]
    exact List.Forall₂.cons (by simp [typeOf_eq_boolean_iff]) ih

/-- Claim C2 at the status list `[{code: "countdown_1", value: 120}, {code: "switch_1",
value: false}]`: the first entry is not enabled, the second is. -/
theorem createDeviceMenu_enabled_witness :
    ∃ entries : List StatusEntry,
      createDeviceMenu (fun _ => "")
        (.obj [("id", .str "d1"), ("name", .str "Lamp")])
        (.arr [.obj [("code", .str "countdown_1"), ("value", .num ⟨false, 120, 0⟩)],
               .obj [("code", .str "switch_1"), ("value", .bool false)]]) =
        .ok { label := some (.str "Lamp"), type := none, role := none, click := none,
              submenu := some entries } ∧
      List.Forall₂
        (fun (entry : StatusEntry) (item : StatusItem) =>
          entry.enabled = true ↔ IsBoolean item.value)
        entries
        [{ code := "countdown_1", value := .num ⟨false, 120, 0⟩ },
         { code := "switch_1", value := .bool false }] :=
  createDeviceMenu_enabled (fun _ => "") (.obj [("id", .str "d1"), ("name", .str "Lamp")])
    (.str "Lamp")
    [.obj [("code", .str "countdown_1"), ("value", .num ⟨false, 120, 0⟩)],
     .obj [("code", .str "switch_1"), ("value", .bool false)]]
    [{ code := "countdown_1", value := .num ⟨false, 120, 0⟩ },
     { code := "switch_1", value := .bool false }] rfl
    (List.Forall₂.cons ⟨rfl, rfl⟩ (List.Forall₂.cons ⟨rfl, rfl⟩ List.Forall₂.nil))

/-! ## The cloud calls -/

/-- Claim C3. When a client exists, `toggleDeviceState(deviceId, code, b)` on a boolean `b`
issues exactly one request, on that client: a `POST` to
`/v1.0/devices/<deviceId>/commands` whose body is `{commands: [{code, value: !b}]}`. -/
theorem toggleDeviceState_request (env : Env) (st : AppState) (client : TuyaContext)
    (deviceId : String) (code : JSValue) (b : Bool) (hclient : st.tuya = some client) :
    (toggleDeviceState env (.str deviceId) code (.bool b) st).2.sent =
      st.sent ++ [(client,
        { method := "POST",
          path := "/v1.0/devices/" ++ deviceId ++ "/commands",
          body := some (.obj [("commands",
            .arr [.obj [("code", code), ("value", .bool (!b))]])]) })] := by
  simp only [toggleDeviceState, Eff.bind_run, Eff.get_run, hclient, Eff.tryCatch_run,
    Eff.lift_run, tuyaRequest_run, toStringJS, toBoolean]
  cases env.request st.sent.length client _ <;> rfl

/-- Claim C3 at a status whose current value is `true`: the one request issued is the
command with value `false` for the same code. -/
theorem toggleDeviceState_request_witness :
    (toggleDeviceState cloudOneDevice (.str "d1") (.str "switch_1") (.bool true)
        sampleState).2.sent =
      [(sampleClient,
        { method := "POST",
          path := "/v1.0/devices/d1/commands",
          body := some (.obj [("commands",
            .arr [.obj [("code", .str "switch_1"), ("value", .bool false)]])]) })] :=
  toggleDeviceState_request cloudOneDevice sampleState sampleClient "d1" (.str "switch_1") true rfl


/-- A computation that can throw returns or throws. -/
theorem except_cases {α : Type} (x : Except JSError α) :
    (∃ a, x = .ok a) ∨ (∃ e, x = .error e) := by
  cases x with
  | ok a => exact Or.inl ⟨a, rfl⟩
  | error e => exact Or.inr ⟨e, rfl⟩

/-- The text of a property of the configuration is the conversion of the property read. -/
theorem formValue_ok (numberToString : JSNum → String) (config v : JSValue) (key text : String)
    (hv : getProp config key = .ok v) (htext : toStringJS numberToString v = .ok text) :
    formValue numberToString config key = .ok text := by
  simp only [formValue, hv, bind, Except.bind, htext]

/-- A text of a property of the configuration comes from a property that can be read and
converted. -/
theorem formValue_eq_ok (numberToString : JSNum → String) (config : JSValue)
    (key text : String) (h : formValue numberToString config key = .ok text) :
    ∃ v, getProp config key = .ok v ∧ toStringJS numberToString v = .ok text := by
  rcases except_cases (getProp config key) with ⟨v, hv⟩ | ⟨e, hv⟩
  · simp only [formValue, hv, bind, Except.bind] at h
    exact ⟨v, hv, h⟩
  · simp only [formValue, hv, bind, Except.bind, reduceCtorEq] at h

/-- The function `fetchDevices` with a client, when the user id of the configuration can
be read and converted to the string `user`: one request, and the property `result` of
the response or the empty array. -/
theorem fetchDevices_run (env : Env) (st : AppState) (client : TuyaContext)
    (userId : JSValue) (user : String)
    (hclient : st.tuya = some client) (huser : getProp st.config "userId" = .ok userId)
    (htext : toStringJS env.numberToString userId = .ok user) :
    fetchDevices env st =
      (match env.request st.sent.length client
          { method := "GET",
            path := "/v1.0/users/" ++ user ++ "/devices",
            body := none } with
        | .ok response =>
          (match getProp response "result" with
            | .ok result => (.ok result, { st with sent := st.sent ++ [(client,
                { method := "GET",
                  path := "/v1.0/users/" ++ user ++ "/devices",
                  body := none })] })
            | .error e => (.ok (.arr []), { st with
                sent := st.sent ++ [(client,
                  { method := "GET",
                    path := "/v1.0/users/" ++ user ++ "/devices",
                    body := none })],
                console := st.console ++ [("Error fetching devices:", e)] }))
        | .error e => (.ok (.arr []), { st with
            sent := st.sent ++ [(client,
              { method := "GET",
                path := "/v1.0/users/" ++ user ++ "/devices",
                body := none })],
            console := st.console ++ [("Error fetching devices:", e)] })) := by
  simp only [fetchDevices, Eff.bind_run, Eff.get_run, hclient, Eff.tryCatch_run,
    Eff.lift_run, huser, htext, tuyaRequest_run]
  cases env.request st.sent.length client _ with
  | error e => rfl
  | ok response =>
    simp only []
    cases getProp response "result" <;> rfl

/-- The function `fetchDevices` without a client: `undefined`, and nothing changes. -/
theorem fetchDevices_no_client (env : Env) (st : AppState) (hclient : st.tuya = none) :
    fetchDevices env st = (.ok .undefined, st) := by
  simp only [fetchDevices, Eff.bind_run, Eff.get_run, hclient, Eff.pure_run]


/-- The function `fetchDevices` with a client, when the user id of the configuration
cannot be read or cannot be converted to a string: the `TypeError` is caught and written
to the diagnostic stream, no request is issued and the empty array is returned. -/
theorem fetchDevices_no_path (env : Env) (st : AppState) (client : TuyaContext) (e : JSError)
    (hclient : st.tuya = some client)
    (hpath : formValue env.numberToString st.config "userId" = .error e) :
    fetchDevices env st =
      (.ok (.arr []), { st with console := st.console ++ [("Error fetching devices:", e)] }) := by
  rcases except_cases (getProp st.config "userId") with ⟨userId, huser⟩ | ⟨e1, huser⟩
  · simp only [formValue, huser, bind, Except.bind] at hpath
    simp only [fetchDevices, Eff.bind_run, Eff.get_run, hclient, Eff.tryCatch_run,
      Eff.lift_run, huser, hpath, consoleError_run, Eff.pure_run]
  · simp only [formValue, huser, bind, Except.bind] at hpath
    have he : e1 = e := Except.error.inj hpath
    subst he
    simp only [fetchDevices, Eff.bind_run, Eff.get_run, hclient, Eff.tryCatch_run,
      Eff.lift_run, huser, consoleError_run, Eff.pure_run]


/-- The three ways `fetchDevices` can run: without a client, with a client and no path for
the request, with a client and a request. -/
theorem fetchDevices_cases (env : Env) (st : AppState) :
    st.tuya = none ∨
    (∃ client e, st.tuya = some client ∧
      formValue env.numberToString st.config "userId" = .error e) ∨
    (∃ client userId user, st.tuya = some client ∧ getProp st.config "userId" = .ok userId ∧
      toStringJS env.numberToString userId = .ok user) := by
  rcases Option.eq_none_or_eq_some st.tuya with hclient | ⟨client, hclient⟩
  · exact Or.inl hclient
  · rcases except_cases (formValue env.numberToString st.config "userId") with
      ⟨user, h⟩ | ⟨e, h⟩
    · obtain ⟨userId, huser, htext⟩ := formValue_eq_ok _ _ _ _ h
      exact Or.inr (Or.inr ⟨client, userId, user, hclient, huser, htext⟩)
    · exact Or.inr (Or.inl ⟨client, e, hclient, h⟩)


/-- The function `fetchDevices` returns; it never throws. -/
theorem fetchDevices_returns (env : Env) (st : AppState) :
    ∃ v, (fetchDevices env st).1 = .ok v := by
  rcases fetchDevices_cases env st with hc | ⟨client, e, hc, hp⟩ |
    ⟨client, userId, user, hc, hu, ht⟩
  · exact ⟨_, by rw [fetchDevices_no_client env st hc]⟩
  · exact ⟨_, by rw [fetchDevices_no_path env st client e hc hp]⟩
  · rw [fetchDevices_run env st client userId user hc hu ht]
    cases env.request st.sent.length client _ with
    | error e => exact ⟨_, rfl⟩
    | ok response =>
      simp only []
      cases getProp response "result" with
      | error e => exact ⟨_, rfl⟩
      | ok result => exact ⟨_, rfl⟩

/-- Claim C4. In every state `fetchDevices` returns a value and does not throw. When its
request, on the path built from the user id of the configuration, is settled with a
response, it returns the property `result` of the response; when the request is
rejected, it returns the empty array; when the path cannot be built, because the user id
cannot be read or converted to a string, it returns the empty array and issues no
request. -/
theorem fetchDevices_result (env : Env) (st : AppState) :
    (∃ v, (fetchDevices env st).1 = .ok v) ∧
    (∀ (client : TuyaContext) (userId : JSValue) (user : String) (response result : JSValue),
      st.tuya = some client → getProp st.config "userId" = .ok userId →
      toStringJS env.numberToString userId = .ok user →
      env.request st.sent.length client
        { method := "GET",
          path := "/v1.0/users/" ++ user ++ "/devices",
          body := none } = .ok response →
      getProp response "result" = .ok result →
      (fetchDevices env st).1 = .ok result) ∧
    (∀ (client : TuyaContext) (userId : JSValue) (user : String) (e : JSError),
      st.tuya = some client → getProp st.config "userId" = .ok userId →
      toStringJS env.numberToString userId = .ok user →
      env.request st.sent.length client
        { method := "GET",
          path := "/v1.0/users/" ++ user ++ "/devices",
          body := none } = .error e →
      (fetchDevices env st).1 = .ok (.arr [])) ∧
    (∀ (client : TuyaContext) (e : JSError),
      st.tuya = some client → formValue env.numberToString st.config "userId" = .error e →
      (fetchDevices env st).1 = .ok (.arr []) ∧ (fetchDevices env st).2.sent = st.sent) := by
  refine ⟨fetchDevices_returns env st, ?_, ?_, ?_⟩
  · intro client userId user response result hclient huser htext hreq hres
    rw [fetchDevices_run env st client userId user hclient huser htext, hreq]
    simp only [hres]
  · intro client userId user e hclient huser htext hreq
    rw [fetchDevices_run env st client userId user hclient huser htext, hreq]
  · intro client e hclient hpath
    rw [fetchDevices_no_path env st client e hclient hpath]
    exact ⟨rfl, rfl⟩

/-- Claim C4 at a cloud that answers with one device, at a cloud that rejects, and at the
user id `{toString: 1}`: the device list is returned in the first case, the empty array in
the other two, and no request is issued in the last. -/
theorem fetchDevices_result_witness :
    (fetchDevices cloudOneDevice sampleState).1 =
        .ok (.arr [.obj [("id", .str "d1"), ("name", .str "Lamp")]]) ∧
    (fetchDevices cloudDown sampleState).1 = .ok (.arr []) ∧
    (fetchDevices cloudOneDevice sampleStateNoUser).1 = .ok (.arr []) ∧
    (fetchDevices cloudOneDevice sampleStateNoUser).2.sent = [] :=
  ⟨(fetchDevices_result cloudOneDevice sampleState).2.1 sampleClient (.str "u1") "u1" _ _
      rfl rfl rfl rfl rfl,
   (fetchDevices_result cloudDown sampleState).2.2.1 sampleClient (.str "u1") "u1" _
      rfl rfl rfl rfl,
   (fetchDevices_result cloudOneDevice sampleStateNoUser).2.2.2 sampleClient .typeError
      rfl rfl⟩

/-! ## The configuration store -/

/-- Claim C5. When the configuration file does not exist, `loadConfig` returns the object
`{baseUrl: "", accessKey: "", secretKey: "", userId: ""}`; it does not throw and changes
nothing. -/
theorem loadConfig_missing_file (st : AppState) (hmissing : st.configFile = none) :
    loadConfig st =
      (.ok (.obj [("baseUrl", .str ""), ("accessKey", .str ""), ("secretKey", .str ""),
        ("userId", .str "")]), st) := by
  simp only [loadConfig, hmissing]

/-- Claim C5 at the state of a first start, before any configuration was saved. -/
theorem loadConfig_missing_file_witness :
    loadConfig (initialState none) =
      (.ok (.obj [("baseUrl", .str ""), ("accessKey", .str ""), ("secretKey", .str ""),
        ("userId", .str "")]), initialState none) :=
  loadConfig_missing_file (initialState none) rfl

/-! ## Writing and reading JSON text -/

/-- The two digits written for a control character read back as its code. -/
theorem hex4_control (n : Nat) (h : n < 32) :
    hex4 '0' '0' (hexDigit (n / 16)) (hexDigit (n % 16)) = some n := by
  interval_cases n <;> decide

/-- An escape written by `JSON.stringify` reads back as the character it was written for. -/
theorem parseEscape_escapeChar (c : Char) (r : List Char) (hc : escapeChar c ≠ [c]) :
    ∃ t, escapeChar c = '\\' :: t ∧ parseEscape (t ++ r) = some (c, r) := by
  unfold escapeChar at hc ⊢
  split_ifs at hc ⊢ with h1 h2 h3 h4 h5 h6 h7 h8
  · subst h1; exact ⟨_, rfl, rfl⟩
  · subst h2; exact ⟨_, rfl, rfl⟩
  · subst h3; exact ⟨_, rfl, rfl⟩
  · subst h4; exact ⟨_, rfl, rfl⟩
  · subst h5; exact ⟨_, rfl, rfl⟩
  · subst h6; exact ⟨_, rfl, rfl⟩
  · subst h7; exact ⟨_, rfl, rfl⟩
  · refine ⟨_, rfl, ?_⟩
    simp only [List.cons_append, List.nil_append, parseEscape, Char.reduceEq, ↓reduceIte, parseHex4,
      hex4_control _ h8]
    have h1 : ¬ (0xD800 ≤ c.toNat ∧ c.toNat < 0xDC00) := by omega
    have h2 : ¬ (0xDC00 ≤ c.toNat ∧ c.toNat < 0xE000) := by omega
    simp only [h1, h2, ↓reduceIte, Char.ofNat_toNat]
  · exact absurd rfl hc

/-- A character written as itself is not a quote, a backslash or a control character. -/
theorem escapeChar_eq_self (c : Char) (hc : escapeChar c = [c]) :
    c ≠ '\"' ∧ c ≠ '\\' ∧ ¬ c.toNat < 32 := by
  unfold escapeChar at hc
  split_ifs at hc with h1 h2 h3 h4 h5 h6 h7 h8
  all_goals first
    | exact ⟨h1, h2, h8⟩
    | (simp at hc)

/-- The text written for a character is not empty. -/
theorem length_escapeChar_pos (c : Char) : 0 < (escapeChar c).length := by
  unfold escapeChar
  split_ifs <;> simp

/-- The text written for a string has at least as many characters as the string. -/
theorem length_le_flatMap_escapeChar (s : List Char) :
    s.length ≤ (s.flatMap escapeChar).length := by
  induction s with
  | nil => simp
  | cons c s ih =>
    have := length_escapeChar_pos c
    simp only [List.flatMap_cons, List.length_append, List.length_cons]
    omega

/-- The text written for a string, followed by a quote, reads back as the string, with a
budget above the string's length. -/
theorem parseStringTail_quoted (s rest : List Char) :
    ∀ fuel, s.length < fuel →
      parseStringTail fuel (s.flatMap escapeChar ++ '\"' :: rest) = some (s, rest) := by
  induction s with
  | nil =>
    intro fuel hfuel
    obtain ⟨f, rfl⟩ : ∃ f, fuel = f + 1 := ⟨fuel - 1, by simp at hfuel; omega⟩
    simp only [List.flatMap_nil, List.nil_append]
    rw [parseStringTail]
    simp only [↓reduceIte]
  | cons c s ih =>
    intro fuel hfuel
    obtain ⟨f, rfl⟩ : ∃ f, fuel = f + 1 := ⟨fuel - 1, by simp at hfuel; omega⟩
    have hf : s.length < f := by simp at hfuel; omega
    simp only [List.flatMap_cons, List.append_assoc]
    by_cases hc : escapeChar c = [c]
    · obtain ⟨h1, h2, h3⟩ := escapeChar_eq_self c hc
      rw [hc, List.singleton_append, parseStringTail]
      simp only [h1, h2, h3, ↓reduceIte, ih f hf, consChar]
    · obtain ⟨t, ht, hp⟩ := parseEscape_escapeChar c (s.flatMap escapeChar ++ '\"' :: rest) hc
      rw [ht, List.cons_append, parseStringTail]
      simp only [Char.reduceEq, ↓reduceIte, hp, ih f hf, consChar]

/-- The text written for a string, followed by a quote, reads back as the string. -/
theorem parseString_quoted (s rest : List Char) :
    parseString (s.flatMap escapeChar ++ '\"' :: rest) = some (s, rest) := by
  unfold parseString
  apply parseStringTail_quoted
  have := length_le_flatMap_escapeChar s
  simp only [List.length_append, List.length_cons]
  omega

/-- A character that is not white space is not dropped. -/
theorem skipWs_cons (c : Char) (r : List Char) (h : isWs c = false) : skipWs (c :: r) = c :: r := by
  simp [skipWs, h]

/-- A member with a string value, followed by a comma: the property is set and the members
after the comma are read. -/
theorem parseMembers_comma (fuel : Nat) (k v rest : List Char) (acc : List (String × JSValue)) :
    parseMembers (fuel + 2)
        ('\"' :: (k.flatMap escapeChar ++ '\"' :: ':' :: '\"' ::
          (v.flatMap escapeChar ++ '\"' :: ',' :: rest))) acc =
      parseMembers (fuel + 1) rest (setProp (String.mk k) (.str (String.mk v)) acc) := by
  rw [parseMembers]
  simp only [skipWs_cons _ _ (show isWs '\"' = false by decide), ↓reduceIte, parseString_quoted,
    skipWs_cons _ _ (show isWs ':' = false by decide)]
  rw [parseValue]
  simp only [skipWs_cons _ _ (show isWs '\"' = false by decide), Char.reduceEq, ↓reduceIte,
    parseScalar, parseString_quoted, skipWs_cons _ _ (show isWs ',' = false by decide)]

/-- A member with a string value, followed by the closing brace: the property is set and
the object ends. -/
theorem parseMembers_brace (fuel : Nat) (k v rest : List Char) (acc : List (String × JSValue)) :
    parseMembers (fuel + 2)
        ('\"' :: (k.flatMap escapeChar ++ '\"' :: ':' :: '\"' ::
          (v.flatMap escapeChar ++ '\"' :: '\x7d' :: rest))) acc =
      .ok (setProp (String.mk k) (.str (String.mk v)) acc) rest := by
  rw [parseMembers]
  simp only [skipWs_cons _ _ (show isWs '\"' = false by decide), ↓reduceIte, parseString_quoted,
    skipWs_cons _ _ (show isWs ':' = false by decide)]
  rw [parseValue]
  simp only [skipWs_cons _ _ (show isWs '\"' = false by decide), Char.reduceEq, ↓reduceIte,
    parseScalar, parseString_quoted, skipWs_cons _ _ (show isWs '\x7d' = false by decide)]

/-- The text written for a message of the form reads back as the message's object, with
nothing left and with any budget of six or more. -/
theorem parseValue_stringifyConfig (fuel : Nat) (c : FormConfig) :
    parseValue (fuel + 6) (stringifyConfig c).data = .ok c.toJS [] := by
  simp only [stringifyConfig, quoteJSONString, List.append_assoc, List.cons_append,
    List.nil_append, List.singleton_append]
  rw [parseValue]
  simp only [skipWs_cons _ _ (show isWs '\x7b' = false by decide), ↓reduceIte,
    skipWs_cons _ _ (show isWs '\"' = false by decide), Char.reduceEq]
  rw [parseMembers_comma, parseMembers_comma, parseMembers_comma, parseMembers_brace]
  simp [setProp, FormConfig.toJS]

/-- The call `JSON.parse(JSON.stringify(config))` on a message of the form gives the
message's object. -/
theorem jsonParse_stringifyConfig (c : FormConfig) :
    jsonParse (stringifyConfig c) = .ok c.toJS := by
  have hlen : 2 ≤ (stringifyConfig c).data.length := by
    simp only [stringifyConfig, quoteJSONString, List.append_assoc, List.cons_append,
      List.nil_append, List.singleton_append, List.length_cons]
    omega
  obtain ⟨f, hf⟩ : ∃ f, 2 * (stringifyConfig c).data.length + 2 = f + 6 :=
    ⟨2 * (stringifyConfig c).data.length - 4, by omega⟩
  unfold jsonParse
  rw [hf, parseValue_stringifyConfig]
  rfl

/-- Claim C6. For every message `cfg` of the configuration form (four strings), `saveConfig`
followed by `loadConfig` returns, without a throw, the object with exactly the four
properties of `cfg`: each of `baseUrl`, `accessKey`, `secretKey` and `userId` reads back as
the string that was saved. -/
theorem loadConfig_saveConfig (cfg : FormConfig) (st : AppState) :
    ∃ loaded : JSValue,
      (loadConfig (saveConfig cfg st).2).1 = .ok loaded ∧
      loaded = cfg.toJS ∧
      getProp loaded "baseUrl" = .ok (.str cfg.baseUrl) ∧
      getProp loaded "accessKey" = .ok (.str cfg.accessKey) ∧
      getProp loaded "secretKey" = .ok (.str cfg.secretKey) ∧
      getProp loaded "userId" = .ok (.str cfg.userId) := by
  refine ⟨cfg.toJS, ?_, rfl, rfl, rfl, rfl, rfl⟩
  simp only [saveConfig, Eff.modify_run, loadConfig, jsonParse_stringifyConfig]

/-! ## The recursion budget of the parser -/

/-- Dropping white space does not lengthen the text. -/
theorem skipWs_length_le (cs : List Char) : (skipWs cs).length ≤ cs.length := by
  induction cs with
  | nil => exact Nat.le_refl _
  | cons c cs ih =>
    simp only [skipWs]
    split
    · exact Nat.le_succ_of_le ih
    · exact Nat.le_refl _

/-- Four hexadecimal digits, once read, leave a shorter text. -/
theorem parseHex4_length (cs rest : List Char) (v : Nat) (h : parseHex4 cs = some (v, rest)) :
    rest.length < cs.length := by
  unfold parseHex4 at h
  split at h
  · split at h
    · cases h
      simp only [List.length_cons]
      omega
    · cases h
  · cases h

/-- An escape of a low surrogate, once read, leaves a shorter text. -/
theorem parseLowSurrogate_length (cs rest : List Char) (w : Nat)
    (h : parseLowSurrogate cs = some (w, rest)) : rest.length < cs.length := by
  unfold parseLowSurrogate at h
  split at h
  · split at h
    · split at h
      · rename_i hhex
        have := parseHex4_length _ _ _ hhex
        split at h
        · cases h
          simp only [List.length_cons]
          omega
        · cases h
      · cases h
    · cases h
  · cases h

/-- A bound on the text left carries over a conditional. -/
theorem ite_some_length {α : Type} (c : Prop) [Decidable c] (x : α) (r : List Char)
    (t : Option (α × List Char)) (res : α × List Char) (n : Nat)
    (h : (if c then some (x, r) else t) = some res) (hr : r.length < n)
    (ht : t = some res → res.2.length < n) : res.2.length < n := by
  by_cases hc : c
  · rw [if_pos hc] at h
    cases h
    exact hr
  · rw [if_neg hc] at h
    exact ht h

/-- An escape, once read, leaves a shorter text. -/
theorem parseEscape_length (cs rest : List Char) (ch : Char)
    (h : parseEscape cs = some (ch, rest)) : rest.length < cs.length := by
  cases cs with
  | nil => cases h
  | cons e r =>
    rw [parseEscape] at h
    have hr : r.length < (e :: r).length := Nat.lt_succ_self _
    refine ite_some_length _ _ _ _ (ch, rest) _ h hr (fun h => ?_)
    refine ite_some_length _ _ _ _ (ch, rest) _ h hr (fun h => ?_)
    refine ite_some_length _ _ _ _ (ch, rest) _ h hr (fun h => ?_)
    refine ite_some_length _ _ _ _ (ch, rest) _ h hr (fun h => ?_)
    refine ite_some_length _ _ _ _ (ch, rest) _ h hr (fun h => ?_)
    refine ite_some_length _ _ _ _ (ch, rest) _ h hr (fun h => ?_)
    refine ite_some_length _ _ _ _ (ch, rest) _ h hr (fun h => ?_)
    refine ite_some_length _ _ _ _ (ch, rest) _ h hr (fun h => ?_)
    by_cases hu : e = 'u'
    · rw [if_pos hu] at h
      cases hhex : parseHex4 r with
      | none => rw [hhex] at h; cases h
      | some p =>
        obtain ⟨v, r1⟩ := p
        have hlen := parseHex4_length _ _ _ hhex
        rw [hhex] at h
        simp only at h
        by_cases g1 : 0xD800 ≤ v ∧ v < 0xDC00
        · rw [if_pos g1] at h
          cases hlow : parseLowSurrogate r1 with
          | none =>
            rw [hlow] at h
            have hrest := (Prod.mk.inj (Option.some.inj h)).2
            rw [← hrest]
            exact Nat.lt_succ_of_lt hlen
          | some q =>
            obtain ⟨w, r2⟩ := q
            have hl2 := parseLowSurrogate_length _ _ _ hlow
            rw [hlow] at h
            have hrest := (Prod.mk.inj (Option.some.inj h)).2
            rw [← hrest]
            exact Nat.lt_succ_of_lt (Nat.lt_trans hl2 hlen)
        · rw [if_neg g1] at h
          by_cases g2 : 0xDC00 ≤ v ∧ v < 0xE000
          · rw [if_pos g2] at h
            have hrest := (Prod.mk.inj (Option.some.inj h)).2
            rw [← hrest]
            exact Nat.lt_succ_of_lt hlen
          · rw [if_neg g2] at h
            have hrest := (Prod.mk.inj (Option.some.inj h)).2
            rw [← hrest]
            exact Nat.lt_succ_of_lt hlen
    · rw [if_neg hu] at h
      cases h

/-- A result with a character in front comes from a result with the same text left. -/
theorem consChar_eq_some (c : Char) (r : Option (List Char × List Char)) (s rest : List Char)
    (h : consChar c r = some (s, rest)) : ∃ t, r = some (t, rest) := by
  cases r with
  | none => cases h
  | some p =>
    obtain ⟨t, r1⟩ := p
    have hrest := (Prod.mk.inj (Option.some.inj h)).2
    exact ⟨t, by rw [← hrest]⟩

/-- A string, once read, leaves a shorter text. -/
theorem parseStringTail_length :
    ∀ (fuel : Nat) (cs s rest : List Char),
      parseStringTail fuel cs = some (s, rest) → rest.length < cs.length
  | 0, _, _, _, h => by rw [parseStringTail] at h; cases h
  | _ + 1, [], _, _, h => by rw [parseStringTail] at h; cases h
  | fuel + 1, c :: cs, s, rest, h => by
    rw [parseStringTail] at h
    by_cases h1 : c = '\"'
    · rw [if_pos h1] at h
      have hrest := (Prod.mk.inj (Option.some.inj h)).2
      rw [← hrest]
      exact Nat.lt_succ_self _
    · rw [if_neg h1] at h
      by_cases h2 : c = '\\'
      · rw [if_pos h2] at h
        cases hesc : parseEscape cs with
        | none => rw [hesc] at h; cases h
        | some p =>
          obtain ⟨ch, r1⟩ := p
          rw [hesc] at h
          obtain ⟨t, ht⟩ := consChar_eq_some _ _ _ _ h
          have h3 := parseStringTail_length fuel r1 t rest ht
          have h4 := parseEscape_length _ _ _ hesc
          simp only [List.length_cons]
          omega
      · rw [if_neg h2] at h
        by_cases h3 : c.toNat < 32
        · rw [if_pos h3] at h; cases h
        · rw [if_neg h3] at h
          obtain ⟨t, ht⟩ := consChar_eq_some _ _ _ _ h
          have h4 := parseStringTail_length fuel cs t rest ht
          simp only [List.length_cons]
          omega

/-- Reading a string does not depend on the budget, from the length of the text on. -/
theorem parseStringTail_fuel :
    ∀ (fuel1 fuel2 : Nat) (cs : List Char), cs.length ≤ fuel1 → cs.length ≤ fuel2 →
      parseStringTail fuel1 cs = parseStringTail fuel2 cs
  | 0, 0, _, _, _ => rfl
  | 0, _ + 1, [], _, _ => by rw [parseStringTail, parseStringTail]
  | _ + 1, 0, [], _, _ => by rw [parseStringTail, parseStringTail]
  | _ + 1, _ + 1, [], _, _ => by rw [parseStringTail, parseStringTail]
  | 0, _, _ :: _, h, _ => absurd h (by simp)
  | _, 0, _ :: _, _, h => absurd h (by simp)
  | fuel1 + 1, fuel2 + 1, c :: cs, h1, h2 => by
    have g1 : cs.length ≤ fuel1 := Nat.le_of_succ_le_succ h1
    have g2 : cs.length ≤ fuel2 := Nat.le_of_succ_le_succ h2
    rw [parseStringTail, parseStringTail, parseStringTail_fuel fuel1 fuel2 cs g1 g2]
    cases hesc : parseEscape cs with
    | none => rfl
    | some p =>
      obtain ⟨ch, r1⟩ := p
      have h4 := parseEscape_length _ _ _ hesc
      simp only []
      rw [parseStringTail_fuel fuel1 fuel2 r1 (by omega) (by omega)]

/-- A string, once read, leaves a shorter text. -/
theorem parseString_length (cs s rest : List Char) (h : parseString cs = some (s, rest)) :
    rest.length < cs.length :=
  parseStringTail_length _ _ _ _ h

/-- A run of digits leaves a text that is not longer. -/
theorem spanDigits_length (cs : List Char) : (spanDigits cs).2.length ≤ cs.length := by
  induction cs with
  | nil => exact Nat.le_refl _
  | cons c cs ih =>
    simp only [spanDigits]
    split
    · exact Nat.le_succ_of_le ih
    · exact Nat.le_refl _

/-- A literal, once dropped, leaves the text shorter by its length. -/
theorem dropLiteral_length :
    ∀ (p cs rest : List Char), dropLiteral p cs = some rest → rest.length + p.length = cs.length
  | [], cs, rest, h => by
    rw [dropLiteral] at h
    cases h
    rfl
  | _ :: _, [], _, h => by rw [dropLiteral] at h; cases h
  | p :: ps, c :: cs, rest, h => by
    rw [dropLiteral] at h
    by_cases hp : p = c
    · rw [if_pos hp] at h
      have := dropLiteral_length ps cs rest h
      simp only [List.length_cons]
      omega
    · rw [if_neg hp] at h
      cases h

/-- The integer part of a numeral, once read, leaves a shorter text. -/
theorem parseIntPart_length (cs ip rest : List Char) (h : parseIntPart cs = some (ip, rest)) :
    rest.length < cs.length := by
  cases cs with
  | nil => cases h
  | cons c cs =>
    rw [parseIntPart] at h
    by_cases h0 : c = '0'
    · rw [if_pos h0] at h
      have hrest := (Prod.mk.inj (Option.some.inj h)).2
      rw [← hrest]
      exact Nat.lt_succ_self _
    · rw [if_neg h0] at h
      by_cases hd : isDigit c = true
      · rw [if_pos hd, spanDigits, if_pos hd] at h
        have hrest := (Prod.mk.inj (Option.some.inj h)).2
        rw [← hrest]
        exact Nat.lt_succ_of_le (spanDigits_length cs)
      · rw [if_neg hd] at h
        cases h

/-- The fraction of a numeral leaves a text that is not longer. -/
theorem parseFraction_length (cs fp rest : List Char) (h : parseFraction cs = some (fp, rest)) :
    rest.length ≤ cs.length := by
  unfold parseFraction at h
  split at h
  · rename_i r
    have hs := spanDigits_length r
    split at h
    · cases h
    · rename_i ds rest1 _ heq
      rw [heq] at hs
      have hrest := (Prod.mk.inj (Option.some.inj h)).2
      rw [← hrest]
      exact Nat.le_succ_of_le hs
  · have hrest := (Prod.mk.inj (Option.some.inj h)).2
    rw [← hrest]

/-- The digits of an exponent leave a text that is not longer. -/
theorem signedDigits_length (neg : Bool) (cs rest : List Char) (e : Int)
    (h : signedDigits neg cs = some (e, rest)) : rest.length ≤ cs.length := by
  have hs := spanDigits_length cs
  unfold signedDigits at h
  split at h
  · cases h
  · rename_i ds1 rest1 _ heq
    rw [heq] at hs
    have hrest := (Prod.mk.inj (Option.some.inj h)).2
    rw [← hrest]
    exact hs

/-- The text of an exponent after its letter leaves a text that is not longer. -/
theorem parseExponentDigits_length (cs rest : List Char) (e : Int)
    (h : parseExponentDigits cs = some (e, rest)) : rest.length ≤ cs.length := by
  cases cs with
  | nil => cases h
  | cons s r =>
    rw [parseExponentDigits] at h
    by_cases hp : s = '+'
    · rw [if_pos hp] at h
      exact Nat.le_succ_of_le (signedDigits_length _ _ _ _ h)
    · rw [if_neg hp] at h
      by_cases hm : s = '-'
      · rw [if_pos hm] at h
        exact Nat.le_succ_of_le (signedDigits_length _ _ _ _ h)
      · rw [if_neg hm] at h
        exact signedDigits_length _ _ _ _ h

/-- The exponent of a numeral leaves a text that is not longer. -/
theorem parseExponent_length (cs rest : List Char) (e : Int)
    (h : parseExponent cs = some (e, rest)) : rest.length ≤ cs.length := by
  cases cs with
  | nil =>
    have hrest := (Prod.mk.inj (Option.some.inj h)).2
    rw [← hrest]
  | cons c cs =>
    rw [parseExponent] at h
    by_cases he : c = 'e' ∨ c = 'E'
    · rw [if_pos he] at h
      exact Nat.le_succ_of_le (parseExponentDigits_length _ _ _ h)
    · rw [if_neg he] at h
      have hrest := (Prod.mk.inj (Option.some.inj h)).2
      rw [← hrest]

/-- A numeral without sign, once read, leaves a shorter text. -/
theorem parseUnsigned_length (neg : Bool) (cs rest : List Char) (n : JSNum)
    (h : parseUnsigned neg cs = some (n, rest)) : rest.length < cs.length := by
  unfold parseUnsigned at h
  cases h1 : parseIntPart cs with
  | none => rw [h1] at h; cases h
  | some p1 =>
    obtain ⟨ip, r1⟩ := p1
    rw [h1] at h
    simp only at h
    cases h2 : parseFraction r1 with
    | none => rw [h2] at h; cases h
    | some p2 =>
      obtain ⟨fp, r2⟩ := p2
      rw [h2] at h
      simp only at h
      cases h3 : parseExponent r2 with
      | none => rw [h3] at h; cases h
      | some p3 =>
        obtain ⟨e, r3⟩ := p3
        rw [h3] at h
        have hrest := (Prod.mk.inj (Option.some.inj h)).2
        rw [← hrest]
        have g1 := parseIntPart_length _ _ _ h1
        have g2 := parseFraction_length _ _ _ h2
        have g3 := parseExponent_length _ _ _ h3
        omega

/-- A numeral, once read, leaves a shorter text. -/
theorem parseNumber_length (cs rest : List Char) (n : JSNum)
    (h : parseNumber cs = some (n, rest)) : rest.length < cs.length := by
  unfold parseNumber at h
  split at h
  · exact Nat.lt_succ_of_lt (parseUnsigned_length _ _ _ _ h)
  · exact parseUnsigned_length _ _ _ _ h

/-- A string, literal or numeral, once read, leaves a shorter text. -/
theorem parseScalar_length (cs rest : List Char) (v : JSValue)
    (h : parseScalar cs = some (v, rest)) : rest.length < cs.length := by
  cases cs with
  | nil => cases h
  | cons c r =>
    rw [parseScalar] at h
    by_cases hq : c = '\"'
    · rw [if_pos hq] at h
      cases hs : parseString r with
      | none => rw [hs] at h; cases h
      | some p =>
        obtain ⟨s, r1⟩ := p
        rw [hs] at h
        have hrest := (Prod.mk.inj (Option.some.inj h)).2
        rw [← hrest]
        exact Nat.lt_succ_of_lt (parseString_length _ _ _ hs)
    · rw [if_neg hq] at h
      cases h1 : dropLiteral ['t', 'r', 'u', 'e'] (c :: r) with
      | some r1 =>
        rw [h1] at h
        have hrest := (Prod.mk.inj (Option.some.inj h)).2
        rw [← hrest]
        have := dropLiteral_length _ _ _ h1
        simp only [List.length_cons, List.length_nil] at this ⊢
        omega
      | none =>
        rw [h1] at h
        simp only at h
        cases h2 : dropLiteral ['f', 'a', 'l', 's', 'e'] (c :: r) with
        | some r1 =>
          rw [h2] at h
          have hrest := (Prod.mk.inj (Option.some.inj h)).2
          rw [← hrest]
          have := dropLiteral_length _ _ _ h2
          simp only [List.length_cons, List.length_nil] at this ⊢
          omega
        | none =>
          rw [h2] at h
          simp only at h
          cases h3 : dropLiteral ['n', 'u', 'l', 'l'] (c :: r) with
          | some r1 =>
            rw [h3] at h
            have hrest := (Prod.mk.inj (Option.some.inj h)).2
            rw [← hrest]
            have := dropLiteral_length _ _ _ h3
            simp only [List.length_cons, List.length_nil] at this ⊢
            omega
          | none =>
            rw [h3] at h
            simp only at h
            cases h4 : parseNumber (c :: r) with
            | none => rw [h4] at h; cases h
            | some p =>
              obtain ⟨n, r1⟩ := p
              rw [h4] at h
              have hrest := (Prod.mk.inj (Option.some.inj h)).2
              rw [← hrest]
              exact parseNumber_length _ _ _ h4

/-- The text after the first character that is not white space is shorter than the text. -/
theorem skipWs_cons_length (cs r : List Char) (c : Char) (h : skipWs cs = c :: r) :
    r.length < cs.length := by
  have := skipWs_length_le cs
  rw [h] at this
  exact this

/-- One more unit of budget: a value, once read, leaves a shorter text. -/
theorem parseValue_step_length (fuel : Nat)
    (hE : ∀ cs items rest, parseElements fuel cs = .ok items rest → rest.length < cs.length)
    (hM : ∀ cs acc props rest, parseMembers fuel cs acc = .ok props rest →
      rest.length < cs.length)
    (cs : List Char) (v : JSValue) (rest : List Char)
    (h : parseValue (fuel + 1) cs = .ok v rest) : rest.length < cs.length := by
  rw [parseValue] at h
  split at h
  · cases h
  · rename_i c r hws
    have h0 := skipWs_cons_length cs r c hws
    split at h
    · split at h
      · cases h
      · rename_i d r1 hws1
        have h1 := skipWs_cons_length r r1 d hws1
        split at h
        · cases h
          omega
        · split at h
          · rename_i props rest1 hm
            have h2 := hM _ _ _ _ hm
            cases h
            simp only [List.length_cons] at h2
            omega
          · cases h
          · cases h
    · split at h
      · split at h
        · cases h
        · rename_i d r1 hws1
          have h1 := skipWs_cons_length r r1 d hws1
          split at h
          · cases h
            omega
          · split at h
            · rename_i items rest1 hm
              have h2 := hE _ _ _ hm
              cases h
              simp only [List.length_cons] at h2
              omega
            · cases h
            · cases h
      · split at h
        · rename_i v1 rest1 hs
          have h2 := parseScalar_length _ _ _ hs
          cases h
          have h3 := skipWs_length_le cs
          rw [hws] at h3
          omega
        · cases h

/-- One more unit of budget: the elements of an array, once read, leave a shorter text. -/
theorem parseElements_step_length (fuel : Nat)
    (hV : ∀ cs v rest, parseValue fuel cs = .ok v rest → rest.length < cs.length)
    (hE : ∀ cs items rest, parseElements fuel cs = .ok items rest → rest.length < cs.length)
    (cs : List Char) (items : List JSValue) (rest : List Char)
    (h : parseElements (fuel + 1) cs = .ok items rest) : rest.length < cs.length := by
  rw [parseElements] at h
  split at h
  · cases h
  · cases h
  · rename_i v r hv
    have h0 := hV _ _ _ hv
    split at h
    · cases h
    · rename_i c r1 hws
      have h1 := skipWs_cons_length r r1 c hws
      split at h
      · split at h
        · rename_i items1 rest1 he
          have h2 := hE _ _ _ he
          cases h
          omega
        · cases h
        · cases h
      · split at h
        · cases h
          omega
        · cases h

/-- One more unit of budget: the members of an object, once read, leave a shorter text. -/
theorem parseMembers_step_length (fuel : Nat)
    (hV : ∀ cs v rest, parseValue fuel cs = .ok v rest → rest.length < cs.length)
    (hM : ∀ cs acc props rest, parseMembers fuel cs acc = .ok props rest →
      rest.length < cs.length)
    (cs : List Char) (acc props : List (String × JSValue)) (rest : List Char)
    (h : parseMembers (fuel + 1) cs acc = .ok props rest) : rest.length < cs.length := by
  rw [parseMembers] at h
  split at h
  · cases h
  · rename_i q r hws
    have h0 := skipWs_cons_length cs r q hws
    split at h
    · split at h
      · cases h
      · rename_i key r1 hs
        have h1 := parseString_length _ _ _ hs
        split at h
        · cases h
        · rename_i c r2 hws2
          have h2 := skipWs_cons_length r1 r2 c hws2
          split at h
          · split at h
            · cases h
            · cases h
            · rename_i v r3 hv
              have h3 := hV _ _ _ hv
              split at h
              · cases h
              · rename_i d r4 hws4
                have h4 := skipWs_cons_length r3 r4 d hws4
                split at h
                · have h5 := hM _ _ _ _ h
                  omega
                · split at h
                  · cases h
                    omega
                  · cases h
          · cases h
    · cases h

/-- A value, the elements of an array and the members of an object, once read, leave a
shorter text. -/
theorem parse_length (fuel : Nat) :
    (∀ cs v rest, parseValue fuel cs = .ok v rest → rest.length < cs.length) ∧
    (∀ cs items rest, parseElements fuel cs = .ok items rest → rest.length < cs.length) ∧
    (∀ cs acc props rest, parseMembers fuel cs acc = .ok props rest →
      rest.length < cs.length) := by
  induction fuel with
  | zero =>
    refine ⟨fun cs v rest h => ?_, fun cs items rest h => ?_, fun cs acc props rest h => ?_⟩
    · rw [parseValue] at h; cases h
    · rw [parseElements] at h; cases h
    · rw [parseMembers] at h; cases h
  | succ fuel ih =>
    obtain ⟨hV, hE, hM⟩ := ih
    exact ⟨parseValue_step_length fuel hE hM, parseElements_step_length fuel hV hE,
      parseMembers_step_length fuel hV hM⟩

/-- One more unit of budget: a value does not use up a budget above twice the length of the
text. -/
theorem parseValue_step_fuel (fuel : Nat)
    (hE : ∀ cs, 2 * cs.length + 2 ≤ fuel → parseElements fuel cs ≠ .outOfFuel)
    (hM : ∀ cs acc, 2 * cs.length + 2 ≤ fuel → parseMembers fuel cs acc ≠ .outOfFuel)
    (cs : List Char) (hfuel : 2 * cs.length + 1 ≤ fuel + 1) :
    parseValue (fuel + 1) cs ≠ .outOfFuel := by
  intro h
  rw [parseValue] at h
  split at h
  · cases h
  · rename_i c r hws
    have h0 := skipWs_cons_length cs r c hws
    split at h
    · split at h
      · cases h
      · rename_i d r1 hws1
        have h1 := skipWs_cons_length r r1 d hws1
        split at h
        · cases h
        · split at h
          · cases h
          · cases h
          · rename_i hm
            exact hM (d :: r1) [] (by simp only [List.length_cons]; omega) hm
    · split at h
      · split at h
        · cases h
        · rename_i d r1 hws1
          have h1 := skipWs_cons_length r r1 d hws1
          split at h
          · cases h
          · split at h
            · cases h
            · cases h
            · rename_i hm
              exact hE (d :: r1) (by simp only [List.length_cons]; omega) hm
      · split at h
        · cases h
        · cases h

/-- One more unit of budget: the elements of an array do not use up a budget above twice the
length of the text plus one. -/
theorem parseElements_step_fuel (fuel : Nat)
    (hV : ∀ cs, 2 * cs.length + 1 ≤ fuel → parseValue fuel cs ≠ .outOfFuel)
    (hE : ∀ cs, 2 * cs.length + 2 ≤ fuel → parseElements fuel cs ≠ .outOfFuel)
    (cs : List Char) (hfuel : 2 * cs.length + 2 ≤ fuel + 1) :
    parseElements (fuel + 1) cs ≠ .outOfFuel := by
  intro h
  rw [parseElements] at h
  split at h
  · cases h
  · rename_i hv
    exact hV cs (by omega) hv
  · rename_i v r hv
    have h0 := (parse_length fuel).1 _ _ _ hv
    split at h
    · cases h
    · rename_i c r1 hws
      have h1 := skipWs_cons_length r r1 c hws
      split at h
      · split at h
        · cases h
        · cases h
        · rename_i he
          exact hE r1 (by omega) he
      · split at h
        · cases h
        · cases h

/-- One more unit of budget: the members of an object do not use up a budget above twice the
length of the text plus one. -/
theorem parseMembers_step_fuel (fuel : Nat)
    (hV : ∀ cs, 2 * cs.length + 1 ≤ fuel → parseValue fuel cs ≠ .outOfFuel)
    (hM : ∀ cs acc, 2 * cs.length + 2 ≤ fuel → parseMembers fuel cs acc ≠ .outOfFuel)
    (cs : List Char) (acc : List (String × JSValue)) (hfuel : 2 * cs.length + 2 ≤ fuel + 1) :
    parseMembers (fuel + 1) cs acc ≠ .outOfFuel := by
  intro h
  rw [parseMembers] at h
  split at h
  · cases h
  · rename_i q r hws
    have h0 := skipWs_cons_length cs r q hws
    split at h
    · split at h
      · cases h
      · rename_i key r1 hs
        have h1 := parseString_length _ _ _ hs
        split at h
        · cases h
        · rename_i c r2 hws2
          have h2 := skipWs_cons_length r1 r2 c hws2
          split at h
          · split at h
            · cases h
            · rename_i hv
              exact hV r2 (by omega) hv
            · rename_i v r3 hv
              have h3 := (parse_length fuel).1 _ _ _ hv
              split at h
              · cases h
              · rename_i d r4 hws4
                have h4 := skipWs_cons_length r3 r4 d hws4
                split at h
                · exact hM r4 _ (by omega) h
                · split at h
                  · cases h
                  · cases h
          · cases h
    · cases h

/-- The recursion budget is not used up when it is above twice the length of the text (plus
one for the elements of an array and the members of an object). -/
theorem parse_fuel (fuel : Nat) :
    (∀ cs, 2 * cs.length + 1 ≤ fuel → parseValue fuel cs ≠ .outOfFuel) ∧
    (∀ cs, 2 * cs.length + 2 ≤ fuel → parseElements fuel cs ≠ .outOfFuel) ∧
    (∀ cs acc, 2 * cs.length + 2 ≤ fuel → parseMembers fuel cs acc ≠ .outOfFuel) := by
  induction fuel with
  | zero =>
    refine ⟨fun cs h => ?_, fun cs h => ?_, fun cs acc h => ?_⟩ <;> omega
  | succ fuel ih =>
    obtain ⟨hV, hE, hM⟩ := ih
    exact ⟨parseValue_step_fuel fuel hE hM, parseElements_step_fuel fuel hV hE,
      parseMembers_step_fuel fuel hV hM⟩

/-- The budget that `jsonParse` gives to `parseValue` is never used up: a syntax error of
`jsonParse` is a syntax error of the text. -/
theorem jsonParse_fuel_suffices (text : String) :
    parseValue (2 * text.data.length + 2) text.data ≠ .outOfFuel :=
  (parse_fuel _).1 text.data (Nat.le_succ _)

/-- The budget that `parseString` gives to `parseStringTail` is enough: a larger one reads
the same string. -/
theorem parseString_fuel_suffices (cs : List Char) (fuel : Nat) (h : cs.length ≤ fuel) :
    parseStringTail fuel cs = parseString cs :=
  parseStringTail_fuel fuel cs.length cs h (Nat.le_refl _)

/-! ## The menu rebuild -/

/-- Every state agrees with itself. -/
theorem Frame.refl (a : AppState) : Frame a a :=
  ⟨rfl, rfl, rfl, rfl, rfl, rfl, rfl, rfl, rfl, rfl⟩

/-- Agreement of states composes. -/
theorem Frame.trans {a b c : AppState} (h1 : Frame a b) (h2 : Frame b c) : Frame a c :=
  ⟨h2.tray.trans h1.tray, h2.configWindow.trans h1.configWindow, h2.config.trans h1.config,
   h2.tuya.trans h1.tuya, h2.configFile.trans h1.configFile, h2.timers.trans h1.timers,
   h2.saveConfigListener.trans h1.saveConfigListener, h2.ready.trans h1.ready,
   h2.contextsBuiltWith.trans h1.contextsBuiltWith, h2.updateMenuCalls.trans h1.updateMenuCalls⟩


/-- The function `fetchDevices` changes only the requests sent and the diagnostic stream. -/
theorem fetchDevices_frame (env : Env) (st : AppState) : Frame st (fetchDevices env st).2 := by
  rcases fetchDevices_cases env st with hc | ⟨client, e, hc, hp⟩ |
    ⟨client, userId, user, hc, hu, ht⟩
  · rw [fetchDevices_no_client env st hc]
    exact Frame.refl st
  · rw [fetchDevices_no_path env st client e hc hp]
    exact ⟨rfl, rfl, rfl, rfl, rfl, rfl, rfl, rfl, rfl, rfl⟩
  · rw [fetchDevices_run env st client userId user hc hu ht]
    cases env.request st.sent.length client _ with
    | error e => exact ⟨rfl, rfl, rfl, rfl, rfl, rfl, rfl, rfl, rfl, rfl⟩
    | ok response =>
      simp only []
      cases getProp response "result" <;> exact ⟨rfl, rfl, rfl, rfl, rfl, rfl, rfl, rfl, rfl, rfl⟩


/-- The function `fetchDevices` neither reads nor writes the counter of calls. -/
theorem fetchDevices_counter (env : Env) (st : AppState) (k : Nat) :
    fetchDevices env { st with updateMenuCalls := k } =
      ((fetchDevices env st).1, { (fetchDevices env st).2 with updateMenuCalls := k }) := by
  rcases fetchDevices_cases env st with hc | ⟨client, e, hc, hp⟩ |
    ⟨client, userId, user, hc, hu, ht⟩
  · rw [fetchDevices_no_client env st hc,
      fetchDevices_no_client env { st with updateMenuCalls := k } hc]
  · rw [fetchDevices_no_path env st client e hc hp,
      fetchDevices_no_path env { st with updateMenuCalls := k } client e hc hp]
  · rw [fetchDevices_run env st client userId user hc hu ht,
      fetchDevices_run env { st with updateMenuCalls := k } client userId user hc hu ht]
    cases env.request st.sent.length client _ with
    | error e => rfl
    | ok response =>
      simp only []
      cases getProp response "result" <;> rfl


/-- With a client, `fetchDeviceStatus` returns the status the cloud gives for the device,
or the empty array; it issues one request, or none when the device id cannot be converted
to a string. -/
theorem fetchDeviceStatus_run (env : Env) (st : AppState) (client : TuyaContext)
    (deviceId : JSValue) (hclient : st.tuya = some client) :
    (fetchDeviceStatus env deviceId st).1 = .ok (statusOf env client st.sent.length deviceId) ∧
    (fetchDeviceStatus env deviceId st).2.sent.length =
      st.sent.length + statusRequests env deviceId ∧
    Frame st (fetchDeviceStatus env deviceId st).2 := by
  rcases except_cases (toStringJS env.numberToString deviceId) with ⟨device, htext⟩ | ⟨e, htext⟩
  · have h : fetchDeviceStatus env deviceId st =
        (match env.request st.sent.length client
            { method := "GET",
              path := "/v1.0/devices/" ++ device ++ "/status",
              body := none } with
          | .ok response =>
            (match getProp response "result" with
              | .ok result => (.ok result, { st with sent := st.sent ++ [(client,
                  { method := "GET",
                    path := "/v1.0/devices/" ++ device ++ "/status",
                    body := none })] })
              | .error e => (.ok (.arr []), { st with
                  sent := st.sent ++ [(client,
                    { method := "GET",
                      path := "/v1.0/devices/" ++ device ++ "/status",
                      body := none })],
                  console := st.console ++ [("Error fetching device status:", e)] }))
          | .error e => (.ok (.arr []), { st with
              sent := st.sent ++ [(client,
                { method := "GET",
                  path := "/v1.0/devices/" ++ device ++ "/status",
                  body := none })],
              console := st.console ++ [("Error fetching device status:", e)] })) := by
      simp only [fetchDeviceStatus, Eff.bind_run, Eff.get_run, hclient, Eff.tryCatch_run,
        Eff.lift_run, htext, tuyaRequest_run]
      cases env.request st.sent.length client _ with
      | error e => rfl
      | ok response =>
        simp only []
        cases getProp response "result" <;> rfl
    rw [h]
    simp only [statusOf, statusRequests, htext]
    cases env.request st.sent.length client _ with
    | error e =>
      exact ⟨rfl, by simp, ⟨rfl, rfl, rfl, rfl, rfl, rfl, rfl, rfl, rfl, rfl⟩⟩
    | ok response =>
      simp only []
      cases getProp response "result" with
      | error e => exact ⟨rfl, by simp, ⟨rfl, rfl, rfl, rfl, rfl, rfl, rfl, rfl, rfl, rfl⟩⟩
      | ok result => exact ⟨rfl, by simp, ⟨rfl, rfl, rfl, rfl, rfl, rfl, rfl, rfl, rfl, rfl⟩⟩
  · have h : fetchDeviceStatus env deviceId st =
        (.ok (.arr []),
          { st with console := st.console ++ [("Error fetching device status:", e)] }) := by
      simp only [fetchDeviceStatus, Eff.bind_run, Eff.get_run, hclient, Eff.tryCatch_run,
        Eff.lift_run, htext, consoleError_run, Eff.pure_run]
    rw [h]
    simp only [statusOf, statusRequests, htext]
    exact ⟨trivial, rfl, ⟨rfl, rfl, rfl, rfl, rfl, rfl, rfl, rfl, rfl, rfl⟩⟩

/-- Mapping a callback that does not throw gives the mapped list. -/
theorem mapThrowing_ok {α β : Type} (f : α → β) (xs : List α) :
    mapThrowing (fun x => (.ok (f x) : Except JSError β)) xs = .ok (xs.map f) := by
  induction xs with
  | nil => rfl
  | cons x xs ih => simp only [mapThrowing, ih, List.map_cons]

/-- When all promises are fulfilled, `Promise.all` gives their values in order. -/
theorem mapThrowing_id_ok {α : Type} (xs : List α) :
    mapThrowing id (xs.map (Except.ok : α → Except JSError α)) = .ok xs := by
  induction xs with
  | nil => rfl
  | cons x xs ih => simp only [List.map_cons, mapThrowing, id, ih]


/-- With a client, the callback of `devices.map` gives the node that `createDeviceMenu`
builds from the status returned, and issues the requests of `fetchDeviceStatus`. -/
theorem deviceMenuItem_run (env : Env) (st : AppState) (client : TuyaContext)
    (device : JSValue) (hclient : st.tuya = some client) (menu : MenuItemTemplate)
    (hmenu : deviceMenuAt env client st.sent.length device = .ok menu) :
    (deviceMenuItem env device st).1 = .ok menu ∧
    (deviceMenuItem env device st).2.sent.length = st.sent.length + deviceRequests env device ∧
    Frame st (deviceMenuItem env device st).2 := by
  unfold deviceMenuAt at hmenu
  rcases except_cases (getProp device "id") with ⟨deviceId, hid⟩ | ⟨e, hid⟩
  · simp only [hid] at hmenu
    obtain ⟨h1, h2, h3⟩ := fetchDeviceStatus_run env st client deviceId hclient
    simp only [deviceMenuItem, Eff.bind_run, Eff.lift_run, hid, deviceRequests]
    generalize fetchDeviceStatus env deviceId st = r at h1 h2 h3
    obtain ⟨r1, r2⟩ := r
    simp only at h1 h2 h3
    subst h1
    simp only [hmenu]
    exact ⟨trivial, h2, h3⟩
  · simp only [hid, reduceCtorEq] at hmenu

/-- The function `fetchDeviceStatus` changes only the requests sent and the diagnostic
stream. -/
theorem fetchDeviceStatus_frame (env : Env) (deviceId : JSValue) (st : AppState) :
    Frame st (fetchDeviceStatus env deviceId st).2 := by
  rcases Option.eq_none_or_eq_some st.tuya with hclient | ⟨client, hclient⟩
  · have h : fetchDeviceStatus env deviceId st = (.ok .undefined, st) := by
      simp only [fetchDeviceStatus, Eff.bind_run, Eff.get_run, hclient, Eff.pure_run]
    rw [h]
    exact Frame.refl st
  · exact (fetchDeviceStatus_run env st client deviceId hclient).2.2

/-- The callback of `devices.map` changes only the requests sent and the diagnostic stream. -/
theorem deviceMenuItem_frame (env : Env) (device : JSValue) (st : AppState) :
    Frame st (deviceMenuItem env device st).2 := by
  cases hid : getProp device "id" with
  | error e =>
    simp only [deviceMenuItem, Eff.bind_run, Eff.lift_run, hid]
    exact Frame.refl st
  | ok deviceId =>
    have h := fetchDeviceStatus_frame env deviceId st
    simp only [deviceMenuItem, Eff.bind_run, Eff.lift_run, hid]
    generalize fetchDeviceStatus env deviceId st = r at h
    obtain ⟨r1, r2⟩ := r
    cases r1 <;> exact h

/-- Running computations that each leave the rest of the state alone leaves it alone. -/
theorem settleAll_frame {α : Type} :
    ∀ (ms : List (Eff α)) (st : AppState), (∀ m ∈ ms, ∀ s, Frame s (m s).2) →
      Frame st (settleAll ms st).2
  | [], st, _ => Frame.refl st
  | m :: ms, st, h => by
    simp only [settleAll]
    exact (h m (List.mem_cons_self m ms) st).trans
      (settleAll_frame ms (m st).2 (fun m1 hm1 => h m1 (List.mem_cons_of_mem m hm1)))

/-- A call of `updateMenu`, whatever its outcome, is counted once and leaves alone the
configuration, the client, the file, the window, the timers and the listeners. -/
theorem updateMenu_frame (env : Env) (st : AppState) :
    Frame { st with updateMenuCalls := st.updateMenuCalls + 1 } (updateMenu env st).2 := by
  have hframe := fetchDevices_frame env st
  obtain ⟨ds, hds⟩ := fetchDevices_returns env st
  simp only [updateMenu, Eff.bind_run, Eff.modify_run, fetchDevices_counter]
  generalize fetchDevices env st = r at hds hframe
  obtain ⟨r1, st1⟩ := r
  simp only at hds hframe
  subst hds
  have hbase : Frame { st with updateMenuCalls := st.updateMenuCalls + 1 }
      { st1 with updateMenuCalls := st.updateMenuCalls + 1, devices := ds } :=
    ⟨hframe.tray, hframe.configWindow, hframe.config, hframe.tuya, hframe.configFile,
      hframe.timers, hframe.saveConfigListener, hframe.ready, hframe.contextsBuiltWith, rfl⟩
  simp only [Eff.lift_run]
  cases hmap : arrayMap ds fun device => (.ok (deviceMenuItem env device) : Except JSError _) with
  | error e => exact hbase
  | ok promises =>
    have hds : ∃ devices : List JSValue, promises = devices.map (deviceMenuItem env) := by
      cases ds <;> simp only [arrayMap, mapThrowing_ok, reduceCtorEq] at hmap
      exact ⟨_, (Except.ok.inj hmap).symm⟩
    obtain ⟨devices, rfl⟩ := hds
    have hsettle := settleAll_frame (devices.map (deviceMenuItem env))
      { st1 with updateMenuCalls := st.updateMenuCalls + 1, devices := ds }
      (by
        intro m hm s
        obtain ⟨d, _, rfl⟩ := List.mem_map.mp hm
        exact deviceMenuItem_frame env d s)
    simp only [promiseAll]
    generalize settleAll (devices.map (deviceMenuItem env))
      { st1 with updateMenuCalls := st.updateMenuCalls + 1, devices := ds } = q at hsettle
    obtain ⟨q1, st2⟩ := q
    simp only at hsettle
    have h2 := hbase.trans hsettle
    cases mapThrowing id q1 with
    | error e => exact h2
    | ok menus =>
      simp only [setContextMenu]
      split <;> exact ⟨h2.tray, h2.configWindow, h2.config, h2.tuya, h2.configFile, h2.timers,
        h2.saveConfigListener, h2.ready, h2.contextsBuiltWith, h2.updateMenuCalls⟩

/-- There is one node per device. -/
theorem MenusFor.length_eq (env : Env) (client : TuyaContext) :
    ∀ (devices : List JSValue) (menus : List MenuItemTemplate) (n : Nat),
      MenusFor env client n devices menus → menus.length = devices.length
  | [], [], _, _ => rfl
  | [], _ :: _, _, h => h.elim
  | _ :: _, [], _, h => h.elim
  | device :: devices, _ :: menus, n, h => by
    simp only [List.length_cons,
      MenusFor.length_eq env client devices menus (n + deviceRequests env device) h.2]

/-- With a client, the callbacks of `devices.map` give, in order, the nodes that
`createDeviceMenu` builds for the devices. -/
theorem settleAll_deviceMenus (env : Env) (client : TuyaContext) :
    ∀ (devices : List JSValue) (menus : List MenuItemTemplate) (st : AppState),
      st.tuya = some client → MenusFor env client st.sent.length devices menus →
      (settleAll (devices.map (deviceMenuItem env)) st).1 = menus.map Except.ok ∧
      Frame st (settleAll (devices.map (deviceMenuItem env)) st).2
  | [], [], st, _, _ => ⟨rfl, Frame.refl st⟩
  | [], _ :: _, _, _, h => h.elim
  | _ :: _, [], _, _, h => h.elim
  | device :: devices, menu :: menus, st, hclient, h => by
    obtain ⟨h1, h2, h3⟩ := deviceMenuItem_run env st client device hclient menu h.1
    have hnext := h.2
    rw [← h2] at hnext
    obtain ⟨ih1, ih2⟩ := settleAll_deviceMenus env client devices menus
      (deviceMenuItem env device st).2 (h3.tuya.trans hclient) hnext
    simp only [List.map_cons, settleAll, h1, ih1]
    exact ⟨trivial, h3.trans ih2⟩

/-- The template built by `updateMenu` when `fetchDevices` returns an array and
`createDeviceMenu` returns a node for each device. -/
theorem updateMenu_run (env : Env) (st : AppState) (client : TuyaContext)
    (devices : List JSValue) (menus : List MenuItemTemplate)
    (htray : st.tray = true) (hclient : st.tuya = some client)
    (hdevices : (fetchDevices env st).1 = .ok (.arr devices))
    (hmenus : MenusFor env client (fetchDevices env st).2.sent.length devices menus) :
    (updateMenu env st).1 = .ok () ∧
    (updateMenu env st).2.currentContextMenu = some (menus ++ fixedEntries) ∧
    (updateMenu env st).2.trayMenu = some (menus ++ fixedEntries) := by
  have hframe := fetchDevices_frame env st
  simp only [updateMenu, Eff.bind_run, Eff.modify_run, fetchDevices_counter]
  generalize fetchDevices env st = r at hdevices hmenus hframe
  obtain ⟨r1, st1⟩ := r
  simp only at hdevices hmenus hframe
  subst hdevices
  simp only [Eff.lift_run, arrayMap, mapThrowing_ok, promiseAll]
  obtain ⟨h1, h2⟩ := settleAll_deviceMenus env client devices menus
    { st1 with updateMenuCalls := st.updateMenuCalls + 1, devices := .arr devices }
    (hframe.tuya.trans hclient) hmenus
  generalize settleAll (devices.map (deviceMenuItem env))
    { st1 with updateMenuCalls := st.updateMenuCalls + 1, devices := .arr devices } = q at h1 h2
  obtain ⟨q1, st2⟩ := q
  simp only at h1 h2
  subst h1
  have ht : st2.tray = true := by rw [h2.tray]; exact hframe.tray.trans htray
  simp only [mapThrowing_id_ok, setContextMenu, ht, ↓reduceIte]
  exact ⟨trivial, trivial, trivial⟩

/-- Claim C8. When `fetchDevices` returns an array of `n` devices and `createDeviceMenu`
returns a node for each device and the status returned for it, `updateMenu` returns and the
template it gives to the tray has exactly `n + 3` entries: the `n` nodes, in the order of
the devices, then the separator, `Open Configuration` and `Quit`. With no device, as when
the listing fails and `fetchDevices` returns the empty array, the template is the three
fixed entries. -/
theorem updateMenu_template (env : Env) (st : AppState) (client : TuyaContext)
    (devices : List JSValue) (menus : List MenuItemTemplate)
    (htray : st.tray = true) (hclient : st.tuya = some client)
    (hdevices : (fetchDevices env st).1 = .ok (.arr devices))
    (hmenus : MenusFor env client (fetchDevices env st).2.sent.length devices menus) :
    (updateMenu env st).1 = .ok () ∧
    (updateMenu env st).2.currentContextMenu = some (menus ++ fixedEntries) ∧
    (updateMenu env st).2.trayMenu = some (menus ++ fixedEntries) ∧
    (menus ++ fixedEntries).length = devices.length + 3 ∧
    fixedEntries.map (fun item => (item.type, item.label)) =
      [(some "separator", none), (none, some (.str "Open Configuration")),
        (none, some (.str "Quit"))] ∧
    (devices = [] → (updateMenu env st).2.trayMenu = some fixedEntries) := by
  obtain ⟨h1, h2, h3⟩ := updateMenu_run env st client devices menus htray hclient hdevices hmenus
  have hlen := MenusFor.length_eq env client devices menus _ hmenus
  refine ⟨h1, h2, h3, ?_, rfl, ?_⟩
  · rw [List.length_append, hlen]
    rfl
  · intro hnil
    subst hnil
    have hm : menus = [] := List.length_eq_zero.mp hlen
    rw [h3, hm, List.nil_append]

/-- Claim C8 at a cloud that lists one device, `Lamp`, with the status
`[{code: "switch_1", value: true}]`: the template has four entries, the node of the device
first. -/
theorem updateMenu_template_witness :
    (updateMenu cloudLamp sampleState).1 = .ok () ∧
    (updateMenu cloudLamp sampleState).2.currentContextMenu =
      some ([lampMenu] ++ fixedEntries) ∧
    (updateMenu cloudLamp sampleState).2.trayMenu =
      some ([lampMenu] ++ fixedEntries) ∧
    ([lampMenu] ++ fixedEntries).length = 1 + 3 ∧
    fixedEntries.map (fun item => (item.type, item.label)) =
      [(some "separator", none), (none, some (.str "Open Configuration")),
        (none, some (.str "Quit"))] ∧
    (([.obj [("id", .str "d1"), ("name", .str "Lamp")]] : List JSValue) = [] →
      (updateMenu cloudLamp sampleState).2.trayMenu = some fixedEntries) :=
  updateMenu_template cloudLamp sampleState sampleClient
    [.obj [("id", .str "d1"), ("name", .str "Lamp")]] [lampMenu] rfl rfl rfl ⟨rfl, trivial⟩



/-- The menu rebuild at a cloud that lists one device whose id is `{toString: 1}`: the
path of the status request cannot be built, so the listing is the only request issued and
the node of the device has an empty submenu. -/
theorem updateMenu_device_without_text :
    (updateMenu cloudNoText sampleState).2.sent.length = 1 ∧
    (updateMenu cloudNoText sampleState).2.trayMenu =
      some ([{ label := some (.str "Lamp"), type := none, role := none, click := none,
               submenu := some [] }] ++ fixedEntries) ∧
    (updateMenu cloudNoText sampleState).2.console =
      [("Error fetching device status:", .typeError)] :=
  ⟨rfl, rfl, rfl⟩

/-- When the device listing is rejected, the template given to the tray is the three fixed
entries. -/
theorem updateMenu_listing_fails (env : Env) (st : AppState) (client : TuyaContext)
    (userId : JSValue) (user : String) (e : JSError)
    (htray : st.tray = true) (hclient : st.tuya = some client)
    (huser : getProp st.config "userId" = .ok userId)
    (htext : toStringJS env.numberToString userId = .ok user)
    (hreq : env.request st.sent.length client
      { method := "GET",
        path := "/v1.0/users/" ++ user ++ "/devices",
        body := none } = .error e) :
    (updateMenu env st).2.trayMenu = some fixedEntries := by
  have hdevices : (fetchDevices env st).1 = .ok (.arr []) := by
    rw [fetchDevices_run env st client userId user hclient huser htext, hreq]
  exact (updateMenu_run env st client [] [] htray hclient hdevices trivial).2.2

/-- When the user id of the configuration cannot be converted to a string, no listing is
requested and the template given to the tray is the three fixed entries. -/
theorem updateMenu_no_path (env : Env) (st : AppState) (client : TuyaContext) (e : JSError)
    (htray : st.tray = true) (hclient : st.tuya = some client)
    (hpath : formValue env.numberToString st.config "userId" = .error e) :
    (updateMenu env st).2.trayMenu = some fixedEntries := by
  have hdevices : (fetchDevices env st).1 = .ok (.arr []) := by
    rw [fetchDevices_no_path env st client e hclient hpath]
  exact (updateMenu_run env st client [] [] htray hclient hdevices trivial).2.2

/-! ## The click on a status entry -/


/-- The function `toggleDeviceState` with a client and a device id that converts to a
string: one request; a rejection is written to the diagnostic stream and nothing is
thrown. -/
theorem toggleDeviceState_run (env : Env) (st : AppState) (client : TuyaContext)
    (deviceId code currentState : JSValue) (device : String) (hclient : st.tuya = some client)
    (htext : toStringJS env.numberToString deviceId = .ok device) :
    toggleDeviceState env deviceId code currentState st =
      (match env.request st.sent.length client
          { method := "POST",
            path := "/v1.0/devices/" ++ device ++ "/commands",
            body := some (.obj [("commands", .arr [.obj [("code", code),
              ("value", .bool (!toBoolean currentState))]])]) } with
        | .ok _ => (.ok (), { st with sent := st.sent ++ [(client,
            { method := "POST",
              path := "/v1.0/devices/" ++ device ++ "/commands",
              body := some (.obj [("commands", .arr [.obj [("code", code),
                ("value", .bool (!toBoolean currentState))]])]) })] })
        | .error e => (.ok (), { st with
            sent := st.sent ++ [(client,
              { method := "POST",
                path := "/v1.0/devices/" ++ device ++ "/commands",
                body := some (.obj [("commands", .arr [.obj [("code", code),
                  ("value", .bool (!toBoolean currentState))]])]) })],
            console := st.console ++ [("Error toggling device state:", e)] })) := by
  simp only [toggleDeviceState, Eff.bind_run, Eff.get_run, hclient, Eff.tryCatch_run,
    Eff.lift_run, htext, tuyaRequest_run]
  cases env.request st.sent.length client _ <;> rfl

/-- The function `toggleDeviceState` with a client and a device id that cannot be converted
to a string: the `TypeError` is caught and written to the diagnostic stream, and no request
is issued. -/
theorem toggleDeviceState_no_path (env : Env) (st : AppState) (client : TuyaContext)
    (deviceId code currentState : JSValue) (e : JSError) (hclient : st.tuya = some client)
    (htext : toStringJS env.numberToString deviceId = .error e) :
    toggleDeviceState env deviceId code currentState st =
      (.ok (), { st with console := st.console ++ [("Error toggling device state:", e)] }) := by
  simp only [toggleDeviceState, Eff.bind_run, Eff.get_run, hclient, Eff.tryCatch_run,
    Eff.lift_run, htext, consoleError_run, Eff.pure_run]



/-- The command for a device whose id is `{toString: 1}`, at a cloud that rejects every
request: the `TypeError` is written to the diagnostic stream and no request is issued. -/
theorem toggleDeviceState_device_without_text :
    toggleDeviceState cloudDown noText (.str "switch_1") (.bool true) sampleState =
      (.ok (), { sampleState with console := [("Error toggling device state:", .typeError)] }) :=
  rfl

/-- The function `toggleDeviceState` returns; it never throws, and it changes only the
requests sent and the diagnostic stream. -/
theorem toggleDeviceState_returns (env : Env) (st : AppState)
    (deviceId code currentState : JSValue) :
    (toggleDeviceState env deviceId code currentState st).1 = .ok () ∧
    Frame st (toggleDeviceState env deviceId code currentState st).2 := by
  rcases Option.eq_none_or_eq_some st.tuya with hclient | ⟨client, hclient⟩
  · have h : toggleDeviceState env deviceId code currentState st = (.ok (), st) := by
      simp only [toggleDeviceState, Eff.bind_run, Eff.get_run, hclient, Eff.pure_run]
    rw [h]
    exact ⟨rfl, Frame.refl st⟩
  · rcases except_cases (toStringJS env.numberToString deviceId) with
      ⟨device, htext⟩ | ⟨e, htext⟩
    · rw [toggleDeviceState_run env st client deviceId code currentState device hclient htext]
      cases env.request st.sent.length client _ <;>
        exact ⟨rfl, ⟨rfl, rfl, rfl, rfl, rfl, rfl, rfl, rfl, rfl, rfl⟩⟩
    · rw [toggleDeviceState_no_path env st client deviceId code currentState e hclient htext]
      exact ⟨rfl, ⟨rfl, rfl, rfl, rfl, rfl, rfl, rfl, rfl, rfl, rfl⟩⟩


/-- The `click` function of a built entry holds the device and the status item it was built
from, and the properties `code` and `value` of that item can be read. -/
theorem statusEntry_click (numberToString : JSNum → String) (device s : JSValue)
    (entry : StatusEntry) (h : statusEntry numberToString device s = .ok entry) :
    entry.click = .toggleThenUpdate device s ∧
    ∃ code value, getProp s "code" = .ok code ∧ getProp s "value" = .ok value := by
  unfold statusEntry at h
  rcases except_cases (getProp s "code") with ⟨code, hc⟩ | ⟨e, hc⟩
  · rcases except_cases (toStringJS numberToString code) with ⟨codeText, ht⟩ | ⟨e, ht⟩
    · rcases except_cases (getProp s "value") with ⟨value, hv⟩ | ⟨e, hv⟩
      · simp only [hc, ht, hv, bind, Except.bind, pure, Except.pure] at h
        have he := Except.ok.inj h
        subst he
        exact ⟨rfl, code, value, hc, hv⟩
      · simp only [hc, ht, hv, bind, Except.bind, reduceCtorEq] at h
    · simp only [hc, ht, bind, Except.bind, reduceCtorEq] at h
  · simp only [hc, bind, Except.bind, reduceCtorEq] at h

/-- Every entry built by `status.map` holds the device and a status item whose properties
can be read. -/
theorem mapThrowing_statusEntry_click (numberToString : JSNum → String) (device : JSValue) :
    ∀ (raw : List JSValue) (entries : List StatusEntry),
      mapThrowing (statusEntry numberToString device) raw = .ok entries →
      ∀ entry ∈ entries, ∃ s ∈ raw, entry.click = .toggleThenUpdate device s ∧
        ∃ code value, getProp s "code" = .ok code ∧ getProp s "value" = .ok value
  | [], entries, h, entry, hmem => by
    have he : entries = [] := (Except.ok.inj h).symm
    subst he
    exact absurd hmem (List.not_mem_nil _)
  | s :: raw, entries, h, entry, hmem => by
    rw [mapThrowing] at h
    cases h1 : statusEntry numberToString device s with
    | error e => rw [h1] at h; cases h
    | ok first =>
      rw [h1] at h
      simp only at h
      cases h2 : mapThrowing (statusEntry numberToString device) raw with
      | error e => rw [h2] at h; cases h
      | ok others =>
        rw [h2] at h
        have he : entries = first :: others := (Except.ok.inj h).symm
        subst he
        rcases List.mem_cons.mp hmem with hfirst | hother
        · subst hfirst
          exact ⟨s, List.mem_cons_self _ _, statusEntry_click numberToString device s entry h1⟩
        · obtain ⟨s1, hs1, hrest⟩ :=
            mapThrowing_statusEntry_click numberToString device raw others h2 entry hother
          exact ⟨s1, List.mem_cons_of_mem _ hs1, hrest⟩

/-- Every entry of a node returned by `createDeviceMenu` holds the device and a status item
whose properties `code` and `value` can be read: the click on it reaches
`toggleDeviceState` as soon as the device's `id` can be read. -/
theorem createDeviceMenu_click (numberToString : JSNum → String) (device status : JSValue)
    (node : MenuItemTemplate) (h : createDeviceMenu numberToString device status = .ok node) :
    ∀ entries, node.submenu = some entries → ∀ entry ∈ entries,
      ∃ s, entry.click = .toggleThenUpdate device s ∧
        ∃ code value, getProp s "code" = .ok code ∧ getProp s "value" = .ok value := by
  unfold createDeviceMenu at h
  cases hm : arrayMap status (statusEntry numberToString device) with
  | error e => simp [hm, bind, Except.bind] at h
  | ok built =>
    cases hn : getProp device "name" with
    | error e => simp [hm, hn, bind, Except.bind] at h
    | ok name =>
      simp only [hm, hn, bind, Except.bind, pure, Except.pure] at h
      have he := Except.ok.inj h
      subst he
      intro entries hentries entry hmem
      have hb : built = entries := Option.some.inj hentries
      subst hb
      cases status with
      | arr raw =>
        obtain ⟨s, _, hclick, hread⟩ :=
          mapThrowing_statusEntry_click numberToString device raw built hm entry hmem
        exact ⟨s, hclick, hread⟩
      | _ => simp [arrayMap] at hm

/-- Claim C9. For a click on a status entry built from a device and a status item,
`toggleDeviceState` returns without a throw whether the command request settles or
rejects; the click function returns and its state is that of one call of `updateMenu`
made after `toggleDeviceState`, so `updateMenu` is called exactly once. When the device id
converts to a string and the command request is rejected, the rejection is written to the
diagnostic stream and one request has been sent; when the device id cannot be converted
to a string, the `TypeError` is written to the diagnostic stream and no request is
sent. -/
theorem onClickStatus_rebuilds_once (env : Env) (st : AppState)
    (device s deviceId code value : JSValue)
    (hid : getProp device "id" = .ok deviceId) (hcode : getProp s "code" = .ok code)
    (hvalue : getProp s "value" = .ok value) :
    (toggleDeviceState env deviceId code value st).1 = .ok () ∧
    (onClickStatus env device s st).1 = .ok () ∧
    (onClickStatus env device s st).2 =
      (updateMenu env (toggleDeviceState env deviceId code value st).2).2 ∧
    (onClickStatus env device s st).2.updateMenuCalls = st.updateMenuCalls + 1 ∧
    (∀ (client : TuyaContext) (text : String) (e : JSError), st.tuya = some client →
      toStringJS env.numberToString deviceId = .ok text →
      env.request st.sent.length client
        { method := "POST",
          path := "/v1.0/devices/" ++ text ++ "/commands",
          body := some (.obj [("commands", .arr [.obj [("code", code),
            ("value", .bool (!toBoolean value))]])]) } = .error e →
      (toggleDeviceState env deviceId code value st).2.console =
        st.console ++ [("Error toggling device state:", e)] ∧
      (toggleDeviceState env deviceId code value st).2.sent.length = st.sent.length + 1) ∧
    (∀ (client : TuyaContext) (e : JSError), st.tuya = some client →
      toStringJS env.numberToString deviceId = .error e →
      (toggleDeviceState env deviceId code value st).2.console =
        st.console ++ [("Error toggling device state:", e)] ∧
      (toggleDeviceState env deviceId code value st).2.sent = st.sent) := by
  obtain ⟨h1, h2⟩ := toggleDeviceState_returns env st deviceId code value
  have hrun : onClickStatus env device s st =
      (.ok (), (updateMenu env (toggleDeviceState env deviceId code value st).2).2) := by
    simp only [onClickStatus, Eff.bind_run, Eff.lift_run, hid, hcode, hvalue, Eff.detached_run]
    generalize toggleDeviceState env deviceId code value st = r at h1
    obtain ⟨r1, r2⟩ := r
    simp only at h1
    subst h1
    rfl
  refine ⟨h1, by rw [hrun], by rw [hrun], ?_, ?_, ?_⟩
  · rw [hrun]
    have h3 := updateMenu_frame env (toggleDeviceState env deviceId code value st).2
    rw [h3.updateMenuCalls]
    show (toggleDeviceState env deviceId code value st).2.updateMenuCalls + 1 = _
    rw [h2.updateMenuCalls]
  · intro client text e hclient htext hreq
    rw [toggleDeviceState_run env st client deviceId code value text hclient htext, hreq]
    exact ⟨rfl, by simp⟩
  · intro client e hclient htext
    rw [toggleDeviceState_no_path env st client deviceId code value e hclient htext]
    exact ⟨rfl, rfl⟩

/-- Claim C9 at a click on the entry `switch_1` of the device `d1` while the cloud rejects
every request: nothing is thrown, `updateMenu` is called once and the failed command is
written to the diagnostic stream. At a device whose id is `{toString: 1}`, `updateMenu` is
called once as well, the `TypeError` is written and no request is issued. -/
theorem onClickStatus_rebuilds_once_witness :
    (toggleDeviceState cloudDown (.str "d1") (.str "switch_1") (.bool true) sampleState).1 =
      .ok () ∧
    (onClickStatus cloudDown (.obj [("id", .str "d1"), ("name", .str "Lamp")])
      (.obj [("code", .str "switch_1"), ("value", .bool true)]) sampleState).1 = .ok () ∧
    (onClickStatus cloudDown (.obj [("id", .str "d1"), ("name", .str "Lamp")])
      (.obj [("code", .str "switch_1"), ("value", .bool true)]) sampleState).2.updateMenuCalls
      = 0 + 1 ∧
    (toggleDeviceState cloudDown (.str "d1") (.str "switch_1") (.bool true)
      sampleState).2.console = [] ++ [("Error toggling device state:", .rejected "network")] ∧
    (toggleDeviceState cloudDown (.str "d1") (.str "switch_1") (.bool true)
      sampleState).2.sent.length = 0 + 1 ∧
    (onClickStatus cloudDown (.obj [("id", noText), ("name", .str "Lamp")])
      (.obj [("code", .str "switch_1"), ("value", .bool true)]) sampleState).2.updateMenuCalls
      = 0 + 1 ∧
    (toggleDeviceState cloudDown noText (.str "switch_1") (.bool true)
      sampleState).2.console = [] ++ [("Error toggling device state:", .typeError)] ∧
    (toggleDeviceState cloudDown noText (.str "switch_1") (.bool true)
      sampleState).2.sent = [] :=
  have h := onClickStatus_rebuilds_once cloudDown sampleState
    (.obj [("id", .str "d1"), ("name", .str "Lamp")])
    (.obj [("code", .str "switch_1"), ("value", .bool true)])
    (.str "d1") (.str "switch_1") (.bool true) rfl rfl rfl
  have h0 := onClickStatus_rebuilds_once cloudDown sampleState
    (.obj [("id", noText), ("name", .str "Lamp")])
    (.obj [("code", .str "switch_1"), ("value", .bool true)])
    noText (.str "switch_1") (.bool true) rfl rfl rfl
  have hrejected := h.2.2.2.2.1 sampleClient "d1" (.rejected "network") rfl rfl rfl
  have hthrown := h0.2.2.2.2.2 sampleClient .typeError rfl rfl
  ⟨h.1, h.2.1, h.2.2.2.1, hrejected.1, hrejected.2, h0.2.2.2.1, hthrown.1, hthrown.2⟩

/-! ## Startup, saved configurations and the poll timer -/

/-- A value one property of which can be read has all its properties readable. -/
theorem getProp_ok_of_ok (v : JSValue) (k1 k2 : String) (x : JSValue)
    (h : getProp v k1 = .ok x) : ∃ y, getProp v k2 = .ok y := by
  cases v <;> simp only [getProp, reduceCtorEq] at h ⊢ <;> exact ⟨_, rfl⟩

/-- The startup condition is false exactly when the four fields are non-empty. -/
theorem configIncomplete_eq_false_iff (config : JSValue) :
    configIncomplete config = .ok false ↔ AllFieldsNonEmpty config := by
  unfold AllFieldsNonEmpty
  cases h1 : getProp config "baseUrl" with
  | error e =>
    simp [configIncomplete, h1, bind, Except.bind]
  | ok b =>
    obtain ⟨a, h2⟩ := getProp_ok_of_ok config "baseUrl" "accessKey" b h1
    obtain ⟨s, h3⟩ := getProp_ok_of_ok config "baseUrl" "secretKey" b h1
    obtain ⟨u, h4⟩ := getProp_ok_of_ok config "baseUrl" "userId" b h1
    simp only [configIncomplete, h1, h2, h3, h4, bind, Except.bind, pure, Except.pure]
    cases hb : toBoolean b <;> cases ha : toBoolean a <;> cases hs : toBoolean s <;>
      cases hu : toBoolean u <;> simp [hb, ha, hs, hu]

/-- The function `loadConfig` reads only the configuration file and changes nothing. -/
theorem loadConfig_run (st : AppState) :
    loadConfig st = ((loadConfig (initialState st.configFile)).1, st) := by
  unfold loadConfig
  cases st.configFile <;> rfl

/-- The function `createTuyaContext` on a configuration whose properties can be read: the
client is built from them and the call is recorded. -/
theorem createTuyaContext_run (st : AppState) (b a s : JSValue)
    (hb : getProp st.config "baseUrl" = .ok b) (ha : getProp st.config "accessKey" = .ok a)
    (hs : getProp st.config "secretKey" = .ok s) :
    createTuyaContext st =
      (.ok { baseUrl := b, accessKey := a, secretKey := s },
        { st with contextsBuiltWith := st.contextsBuiltWith ++ [st.config] }) := by
  simp only [createTuyaContext, Eff.bind_run, Eff.modify_run, Eff.get_run, Eff.lift_run, hb, ha,
    hs, Eff.pure_run]


/-- The function `openConfigWindow` starts no timer and builds no client. -/
theorem openConfigWindow_keeps (env : Env) (st : AppState) :
    (openConfigWindow env st).2.timers = st.timers ∧
    (openConfigWindow env st).2.ready = st.ready ∧
    (openConfigWindow env st).2.contextsBuiltWith = st.contextsBuiltWith := by
  unfold openConfigWindow
  simp only [Eff.bind_run, Eff.get_run, Eff.modify_run, Eff.lift_run]
  cases st.configWindow with
  | true => exact ⟨rfl, rfl, rfl⟩
  | false =>
    simp only [Bool.false_eq_true, ↓reduceIte, Eff.bind_run, Eff.modify_run, Eff.lift_run]
    cases formValue env.numberToString st.config "baseUrl" <;>
      cases formValue env.numberToString st.config "accessKey" <;>
      cases formValue env.numberToString st.config "secretKey" <;>
      cases formValue env.numberToString st.config "userId" <;>
      exact ⟨rfl, rfl, rfl⟩

/-- The startup with a complete configuration: the client is built from it, the menu is
rebuilt, one timer is started and the listener is registered. -/
theorem onReady_complete (env : Env) (st : AppState) (config : JSValue)
    (hload : (loadConfig (initialState st.configFile)).1 = .ok config)
    (hcomplete : AllFieldsNonEmpty config) :
    (onReady env st).1 = .ok () ∧
    (onReady env st).2.timers = st.timers + 1 ∧ (onReady env st).2.ready = true ∧
    (onReady env st).2.saveConfigListener = true ∧
    (onReady env st).2.contextsBuiltWith = st.contextsBuiltWith ++ [config] := by
  have hinc := (configIncomplete_eq_false_iff config).mpr hcomplete
  obtain ⟨b, a, s, u, hb, ha, hs, hu, _⟩ := hcomplete
  have hl : loadConfig { st with tray := true, ready := true } =
      (.ok config, { st with tray := true, ready := true }) := by
    rw [loadConfig_run, hload]
  have hctx := createTuyaContext_run
    { st with tray := true, ready := true, config := config } b a s hb ha hs
  simp only [onReady, Eff.bind_run, Eff.modify_run, hl, Eff.lift_run, hinc, Bool.false_eq_true,
    ↓reduceIte, hctx, Eff.detached_run, startAutoRefresh]
  have hf := updateMenu_frame env
    { st with tray := true, ready := true, config := config,
              contextsBuiltWith := st.contextsBuiltWith ++ [config],
              tuya := some { baseUrl := b, accessKey := a, secretKey := s } }
  refine ⟨?_, ?_, ?_, ?_, ?_⟩ <;>
    first | trivial | rfl | exact hf.ready | exact hf.contextsBuiltWith | (rw [hf.timers])

/-- The startup with an incomplete or unreadable configuration: no timer is started and
no client is built. -/
theorem onReady_incomplete (env : Env) (st : AppState)
    (hincomplete : ¬ StartsComplete st.configFile) :
    (onReady env st).2.timers = st.timers ∧ (onReady env st).2.ready = true ∧
    (onReady env st).2.contextsBuiltWith = st.contextsBuiltWith := by
  cases hload : (loadConfig (initialState st.configFile)).1 with
  | error e =>
    have hl : loadConfig { st with tray := true, ready := true } =
        (.error e, { st with tray := true, ready := true }) := by
      rw [loadConfig_run, hload]
    simp only [onReady, Eff.bind_run, Eff.modify_run, hl]
    refine ⟨?_, ?_, ?_⟩ <;> trivial
  | ok config =>
    have hl : loadConfig { st with tray := true, ready := true } =
        (.ok config, { st with tray := true, ready := true }) := by
      rw [loadConfig_run, hload]
    cases hinc : configIncomplete config with
    | error e =>
      simp only [onReady, Eff.bind_run, Eff.modify_run, hl, Eff.lift_run, hinc]
      refine ⟨?_, ?_, ?_⟩ <;> trivial
    | ok incomplete =>
      cases incomplete with
      | false =>
        exact absurd ⟨config, hload, (configIncomplete_eq_false_iff config).mp hinc⟩ hincomplete
      | true =>
        have hk := openConfigWindow_keeps env
          { st with tray := true, ready := true, config := config }
        simp only [onReady, Eff.bind_run, Eff.modify_run, hl, Eff.lift_run, hinc, ↓reduceIte]
        generalize openConfigWindow env
          { st with tray := true, ready := true, config := config } = r at hk
        obtain ⟨r1, r2⟩ := r
        cases r1 <;> exact hk

/-- The listener of `save-config` starts no timer and builds a client from the message it
receives, whatever the message. -/
theorem onSaveConfig_run (env : Env) (newConfig : FormConfig) (st : AppState) :
    (onSaveConfig env newConfig st).2.timers = st.timers ∧
    (onSaveConfig env newConfig st).2.ready = st.ready ∧
    (onSaveConfig env newConfig st).2.contextsBuiltWith =
      st.contextsBuiltWith ++ [newConfig.toJS] := by
  have hctx := createTuyaContext_run
    { st with config := newConfig.toJS, configFile := some (stringifyConfig newConfig) }
    (.str newConfig.baseUrl) (.str newConfig.accessKey) (.str newConfig.secretKey) rfl rfl rfl
  simp only [onSaveConfig, Eff.bind_run, Eff.modify_run, saveConfig, hctx, Eff.detached_run]
  have hf := updateMenu_frame env
    { st with config := newConfig.toJS, configFile := some (stringifyConfig newConfig),
              contextsBuiltWith := st.contextsBuiltWith ++ [newConfig.toJS],
              tuya := some { baseUrl := .str newConfig.baseUrl,
                             accessKey := .str newConfig.accessKey,
                             secretKey := .str newConfig.secretKey } }
  exact ⟨hf.timers, hf.ready, hf.contextsBuiltWith⟩

/-- The function `updateMenu` starts no timer and builds no client. -/
theorem updateMenu_keeps (env : Env) (st : AppState) :
    (updateMenu env st).2.timers = st.timers ∧ (updateMenu env st).2.ready = st.ready ∧
    (updateMenu env st).2.contextsBuiltWith = st.contextsBuiltWith :=
  ⟨(updateMenu_frame env st).timers, (updateMenu_frame env st).ready,
    (updateMenu_frame env st).contextsBuiltWith⟩

/-- The click on a status entry starts no timer and builds no client. -/
theorem onClickStatus_keeps (env : Env) (device s : JSValue) (st : AppState) :
    (onClickStatus env device s st).2.timers = st.timers ∧
    (onClickStatus env device s st).2.ready = st.ready ∧
    (onClickStatus env device s st).2.contextsBuiltWith = st.contextsBuiltWith := by
  simp only [onClickStatus, Eff.bind_run, Eff.lift_run, Eff.detached_run]
  cases getProp device "id" with
  | error e => exact ⟨rfl, rfl, rfl⟩
  | ok deviceId =>
    simp only []
    cases getProp s "code" with
    | error e => exact ⟨rfl, rfl, rfl⟩
    | ok code =>
      simp only []
      cases getProp s "value" with
      | error e => exact ⟨rfl, rfl, rfl⟩
      | ok value =>
        simp only []
        obtain ⟨h1, h2⟩ := toggleDeviceState_returns env st deviceId code value
        generalize toggleDeviceState env deviceId code value st = r at h1 h2
        obtain ⟨r1, r2⟩ := r
        simp only at h1 h2
        subst h1
        simp only []
        have hk := updateMenu_keeps env r2
        exact ⟨hk.1.trans h2.timers, hk.2.1.trans h2.ready, hk.2.2.trans h2.contextsBuiltWith⟩

/-- A click starts no timer and builds no client. -/
theorem runClick_keeps (env : Env) (click : ClickHandler) (st : AppState) :
    (runClick env click st).2.timers = st.timers ∧ (runClick env click st).2.ready = st.ready ∧
    (runClick env click st).2.contextsBuiltWith = st.contextsBuiltWith := by
  cases click with
  | toggleThenUpdate device s => exact onClickStatus_keeps env device s st
  | openConfigWindow => exact openConfigWindow_keeps env st

/-- The event `ready` runs the startup once. -/
theorem step_ready (env : Env) (st : AppState) :
    step env st .ready = if st.ready = true then st else (onReady env st).2 := by
  unfold step handler
  cases st.ready <;> rfl

/-- A message on `save-config` runs the listener once it is registered. -/
theorem step_saveConfig (env : Env) (st : AppState) (newConfig : FormConfig) :
    step env st (.saveConfig newConfig) =
      if st.saveConfigListener = true then (onSaveConfig env newConfig st).2 else st := by
  unfold step handler
  cases st.saveConfigListener <;> rfl

/-- An event other than `ready` starts no timer and leaves the flag `ready` as it is. -/
theorem step_keeps (env : Env) (st : AppState) (ev : Event) (hev : ev ≠ .ready) :
    (step env st ev).timers = st.timers ∧ (step env st ev).ready = st.ready := by
  cases ev with
  | ready => exact absurd rfl hev
  | saveConfig newConfig =>
    rw [step_saveConfig]
    split
    · exact ⟨(onSaveConfig_run env newConfig st).1, (onSaveConfig_run env newConfig st).2.1⟩
    · exact ⟨rfl, rfl⟩
  | tick =>
    unfold step handler
    by_cases h : 0 < st.timers
    · simp only [h, ↓reduceIte]
      exact ⟨(updateMenu_keeps env st).1, (updateMenu_keeps env st).2.1⟩
    · simp only [h, ↓reduceIte]
      exact ⟨trivial, trivial⟩
  | clickItem i =>
    have hstep : step env st (.clickItem i) =
        (match itemClick st i with
          | some click => (runClick env click st).2
          | none => st) := by
      simp only [step, handler]
      cases itemClick st i <;> rfl
    rw [hstep]
    cases itemClick st i with
    | none => exact ⟨rfl, rfl⟩
    | some click => exact ⟨(runClick_keeps env click st).1, (runClick_keeps env click st).2.1⟩
  | clickStatus i j =>
    have hstep : step env st (.clickStatus i j) =
        (match statusClick st i j with
          | some click => (runClick env click st).2
          | none => st) := by
      simp only [step, handler]
      cases statusClick st i j <;> rfl
    rw [hstep]
    cases statusClick st i j with
    | none => exact ⟨rfl, rfl⟩
    | some click => exact ⟨(runClick_keeps env click st).1, (runClick_keeps env click st).2.1⟩
  | configWindowClosed =>
    simp only [step, handler]
    cases st.configWindow <;> exact ⟨rfl, rfl⟩

/-- Before the startup no event other than `ready` can happen. -/
theorem step_initialState (env : Env) (configFile : Option String) (ev : Event)
    (hev : ev ≠ .ready) : step env (initialState configFile) ev = initialState configFile := by
  cases ev with
  | ready => exact absurd rfl hev
  | saveConfig newConfig => rfl
  | tick => rfl
  | clickItem i => rfl
  | clickStatus i j => rfl
  | configWindowClosed => rfl

/-- The state after a sequence of events and one more. -/
theorem run_append_singleton (env : Env) (st : AppState) (evs : List Event) (ev : Event) :
    run env st (evs ++ [ev]) = step env (run env st evs) ev := by
  simp only [run, List.foldl_append, List.foldl_cons, List.foldl_nil]

/-- Before the event `ready` the state is the initial one; after it the number of timers
is fixed: one when the configuration loaded at startup is complete, none otherwise. -/
theorem run_invariant (env : Env) (configFile : Option String) (evs : List Event) :
    (Event.ready ∉ evs → run env (initialState configFile) evs = initialState configFile) ∧
    (Event.ready ∈ evs →
      (run env (initialState configFile) evs).ready = true ∧
      (StartsComplete configFile → (run env (initialState configFile) evs).timers = 1) ∧
      (¬ StartsComplete configFile → (run env (initialState configFile) evs).timers = 0)) := by
  induction evs using List.reverseRecOn with
  | nil => exact ⟨fun _ => rfl, fun h => absurd h (List.not_mem_nil _)⟩
  | append_singleton evs ev ih =>
    rw [run_append_singleton]
    by_cases hev : ev = Event.ready
    · subst hev
      rw [step_ready]
      by_cases hmem : Event.ready ∈ evs
      · obtain ⟨hr, hc, hi⟩ := ih.2 hmem
        rw [if_pos hr]
        exact ⟨fun h => absurd (List.mem_append_left _ hmem) h, fun _ => ⟨hr, hc, hi⟩⟩
      · rw [ih.1 hmem]
        have hnr : (initialState configFile).ready = false := rfl
        simp only [hnr, Bool.false_eq_true, ↓reduceIte]
        refine ⟨fun h => absurd (List.mem_append_right _ (List.mem_singleton_self _)) h,
          fun _ => ?_⟩
        by_cases hsc : StartsComplete configFile
        · obtain ⟨config, hload, hcomplete⟩ := hsc
          obtain ⟨_, h2, h3, _, _⟩ :=
            onReady_complete env (initialState configFile) config hload hcomplete
          exact ⟨h3, fun _ => h2, fun h => absurd ⟨config, hload, hcomplete⟩ h⟩
        · obtain ⟨h1, h2, _⟩ := onReady_incomplete env (initialState configFile) hsc
          exact ⟨h2, fun h => absurd h hsc, fun _ => h1⟩
    · have hmem : Event.ready ∈ evs ++ [ev] ↔ Event.ready ∈ evs := by
        simp only [List.mem_append, List.mem_singleton]
        exact ⟨fun h => h.elim id (fun h1 => absurd h1.symm hev), Or.inl⟩
      rw [hmem]
      refine ⟨fun h => ?_, fun h => ?_⟩
      · rw [ih.1 h]
        exact step_initialState env configFile ev hev
      · obtain ⟨hr, hc, hi⟩ := ih.2 h
        obtain ⟨h1, h2⟩ := step_keeps env (run env (initialState configFile) evs) ev hev
        exact ⟨h2.trans hr, fun hsc => h1.trans (hc hsc), fun hsc => h1.trans (hi hsc)⟩

/-- Claim C10. In every execution the poll timer is started at most once; it is started if
and only if the startup has run and the configuration it loaded has all four fields
non-empty; the listener of `save-config` never starts it; so after a startup with an
incomplete configuration no timer ever runs, whatever is saved afterwards. -/
theorem poll_timer_started_once (env : Env) (configFile : Option String) (evs : List Event) :
    (run env (initialState configFile) evs).timers ≤ 1 ∧
    ((run env (initialState configFile) evs).timers = 1 ↔
      (Event.ready ∈ evs ∧ StartsComplete configFile)) ∧
    (∀ (st : AppState) (newConfig : FormConfig),
      (step env st (.saveConfig newConfig)).timers = st.timers) ∧
    (¬ StartsComplete configFile → (run env (initialState configFile) evs).timers = 0) := by
  obtain ⟨h1, h2⟩ := run_invariant env configFile evs
  have hsave : ∀ (st : AppState) (newConfig : FormConfig),
      (step env st (.saveConfig newConfig)).timers = st.timers :=
    fun st newConfig => (step_keeps env st (.saveConfig newConfig) (fun h => nomatch h)).1
  by_cases hmem : Event.ready ∈ evs
  · obtain ⟨_, hc, hi⟩ := h2 hmem
    by_cases hsc : StartsComplete configFile
    · refine ⟨by rw [hc hsc], ⟨fun _ => ⟨hmem, hsc⟩, fun _ => hc hsc⟩, hsave, fun h => absurd hsc h⟩
    · refine ⟨by rw [hi hsc]; exact Nat.zero_le 1, ⟨fun h => ?_, fun h => absurd h.2 hsc⟩, hsave,
        fun _ => hi hsc⟩
      rw [hi hsc] at h
      exact absurd h (by decide)
  · have h0 : (run env (initialState configFile) evs).timers = 0 := by rw [h1 hmem]; rfl
    refine ⟨by rw [h0]; exact Nat.zero_le 1, ⟨fun h => ?_, fun h => absurd h.1 hmem⟩, hsave,
      fun _ => h0⟩
    rw [h0] at h
    exact absurd h (by decide)

/-- Without a configuration file the configuration loaded at startup is incomplete. -/
theorem not_startsComplete_none : ¬ StartsComplete none := by
  rintro ⟨config, hload, b, a, s, u, hb, _, _, _, htb, _⟩
  have hc : config = .obj [("baseUrl", .str ""), ("accessKey", .str ""), ("secretKey", .str ""),
      ("userId", .str "")] := (Except.ok.inj hload).symm
  subst hc
  have hb2 : b = .str "" := (Except.ok.inj hb).symm
  subst hb2
  exact absurd htb (by decide)

/-- Claim C7, at the input where the code departs from it. On a first start (no
configuration file) the form is opened; when it is submitted with its four fields empty,
the listener of `save-config` calls `createTuyaContext` with a configuration whose fields
are all empty. -/
theorem saveConfig_builds_client_unguarded (env : Env) :
    (run env (initialState none)
        [.ready, .saveConfig { baseUrl := "", accessKey := "", secretKey := "", userId := "" }]
      ).contextsBuiltWith =
      [FormConfig.toJS { baseUrl := "", accessKey := "", secretKey := "", userId := "" }] ∧
    ¬ AllFieldsNonEmpty
      (FormConfig.toJS { baseUrl := "", accessKey := "", secretKey := "", userId := "" }) := by
  constructor
  · have h1 : step env (initialState none) .ready =
        { initialState none with
          tray := true, ready := true, configWindow := true, saveConfigListener := true,
          config := .obj [("baseUrl", .str ""), ("accessKey", .str ""), ("secretKey", .str ""),
            ("userId", .str "")] } := rfl
    simp only [run, List.foldl_cons, List.foldl_nil, h1, step_saveConfig, ↓reduceIte]
    exact (onSaveConfig_run env _ _).2.2
  · rintro ⟨b, a, s, u, hb, _, _, _, htb, _⟩
    have hb2 : b = .str "" := (Except.ok.inj hb).symm
    subst hb2
    exact absurd htb (by decide)

/-- The startup path keeps the guard: every client it builds is built from a configuration
whose four fields are non-empty. -/
theorem onReady_builds_client_guarded (env : Env) (st : AppState) (config : JSValue)
    (hbuilt : config ∈ (onReady env st).2.contextsBuiltWith) :
    config ∈ st.contextsBuiltWith ∨ AllFieldsNonEmpty config := by
  by_cases hsc : StartsComplete st.configFile
  · obtain ⟨loaded, hload, hcomplete⟩ := hsc
    obtain ⟨_, _, _, _, h⟩ := onReady_complete env st loaded hload hcomplete
    rw [h, List.mem_append, List.mem_singleton] at hbuilt
    rcases hbuilt with hold | hnew
    · exact Or.inl hold
    · exact Or.inr (hnew ▸ hcomplete)
  · rw [(onReady_incomplete env st hsc).2.2] at hbuilt
    exact Or.inl hbuilt

/-- Claim C10 at a first start (no configuration file) followed by two saved
configurations: no timer runs. -/
theorem poll_timer_started_once_witness :
    (run cloudDown (initialState none)
      [.ready,
       .saveConfig { baseUrl := "https://openapi.tuyaeu.com", accessKey := "key",
                     secretKey := "secret", userId := "u1" },
       .saveConfig { baseUrl := "https://openapi.tuyaeu.com", accessKey := "key",
                     secretKey := "secret", userId := "u1" }]).timers = 0 :=
  (poll_timer_started_once cloudDown none _).2.2.2 not_startsComplete_none

end TuyaTaskbar
